import Mathlib

/-!
Verification of the tiny-stream signaling hub (server.ts, function
setupSignaling and its helpers) against its natural-language specification.

The WebSocket server is embedded shallowly: a WebSocket connection is a
SessionId, the two mutable maps (the room registry and the per-socket
metadata table) are association lists, JS Sets are duplicate-free lists in
insertion order, and every ws.send call is recorded in an output list in
the order the calls are made.  Math.random inside generateRoomCode is
supplied as an explicit Nat parameter.
-/

namespace TinyStream

/-- A WebSocket connection object, identified by a numeric id. -/
abbrev SessionId := Nat

/-- Per-connection metadata (interface SocketMeta in server.ts): role is
null initially, peerId and roomName are absent until set. -/
structure SocketMeta where
  role : Option String
  peerId : Option String
  roomName : Option String
  deriving Repr, DecidableEq

/-- Room state (interface Room in server.ts): optional sender socket, a set
of receiver sockets (modelled as a duplicate-free list in insertion order),
and the access code string. -/
structure Room where
  sender : Option SessionId
  receivers : List SessionId
  code : String
  deriving Repr, DecidableEq

/-- A parsed signaling message (interface SignalMessage in src/types.ts).
Absent JSON fields are none; the candidate payload is kept opaque as a
string.  The JS fields named from and to are called from' and to' here. -/
structure SignalMessage where
  type : String
  sdp : Option String := none
  candidate : Option String := none
  from' : Option String := none
  to' : Option String := none
  peerId : Option String := none
  newRole : Option String := none
  room : Option String := none
  role : Option String := none
  code : Option String := none
  reason : Option String := none
  deriving Repr, DecidableEq

/-- The full mutable state of the hub: the room registry (Map<string, Room>),
the socket metadata table (Map<WebSocket, SocketMeta>), and the set of
sockets whose readyState is OPEN. -/
structure ServerState where
  rooms : List (String × Room)
  socketMeta : List (SessionId × SocketMeta)
  openConns : List SessionId
  deriving Repr, DecidableEq

/-- Messages the server sends: receiver socket paired with the payload. -/
abbrev Out := List (SessionId × SignalMessage)

/-- JS truthiness of an optional string field: undefined and the empty
string are falsy. -/
def truthy (o : Option String) : Prop := o ≠ none ∧ o ≠ some ""

instance (o : Option String) : Decidable (truthy o) := by
  unfold truthy; infer_instance

/-- Lookup in an association list, first binding wins (JS Map.get). -/
def mapGet {α β : Type} [DecidableEq α] : List (α × β) → α → Option β
  | [], _ => none
  | (k', v) :: rest, k => if k' = k then some v else mapGet rest k

/-- JS Map.set: replace the first binding of the key, or append a new one. -/
def mapSet {α β : Type} [DecidableEq α] : List (α × β) → α → β → List (α × β)
  | [], k, v => [(k, v)]
  | (k', v') :: rest, k, v =>
      if k' = k then (k, v) :: rest else (k', v') :: mapSet rest k v

/-- JS Map.delete: remove the first binding of the key. -/
def mapErase {α β : Type} [DecidableEq α] : List (α × β) → α → List (α × β)
  | [], _ => []
  | (k', v') :: rest, k => if k' = k then rest else (k', v') :: mapErase rest k

/-- JS Set.add on the duplicate-free list model: append if not present. -/
def setAdd {α : Type} [DecidableEq α] (l : List α) (x : α) : List α :=
  if x ∈ l then l else l ++ [x]

/-- JS Set.delete on the duplicate-free list model. -/
def setDelete {α : Type} [DecidableEq α] (l : List α) (x : α) : List α :=
  l.filter (fun y => y ≠ x)

/-- Models generateRoomCode in server.ts:
Math.floor(1000 + Math.random() * 9000).toString().
Math.floor(Math.random() * 9000) is a uniform draw from 0..8999; it is
supplied as the parameter k, reduced mod 9000 to make the range explicit. -/
def generateRoomCode (k : Nat) : String :=
  Nat.repr (1000 + k % 9000)

/-- Models getRoom in setupSignaling: look the room up, creating it with a
fresh code if absent; returns the updated registry and the room. -/
def getRoom (rooms : List (String × Room)) (id : String) (k : Nat) :
    List (String × Room) × Room :=
  match mapGet rooms id with
  | some r => (rooms, r)
  | none =>
      let r : Room := { sender := none, receivers := [], code := generateRoomCode k }
      (mapSet rooms id r, r)

/-- The metadata stored for a fresh connection: socketMeta.set(ws, { role: null }). -/
def freshMeta : SocketMeta := { role := none, peerId := none, roomName := none }

/-- Models getMeta in setupSignaling (total: absent sockets give the fresh
metadata; the server only calls it for registered sockets). -/
def getMeta (metas : List (SessionId × SocketMeta)) (ws : SessionId) : SocketMeta :=
  (mapGet metas ws).getD freshMeta

/-- readyState === WebSocket.OPEN. -/
def isOpen (st : ServerState) (ws : SessionId) : Bool :=
  st.openConns.contains ws

/-- Payload { type: "join-denied", reason }. -/
def joinDeniedMsg (reason : String) : SignalMessage :=
  { type := "join-denied", reason := some reason }

/-- Payload { type: "role-changed", newRole: "receiver" }. -/
def roleChangedMsg : SignalMessage :=
  { type := "role-changed", newRole := some "receiver" }

/-- Payload { type: "room-code", code }. -/
def roomCodeMsg (code : String) : SignalMessage :=
  { type := "room-code", code := some code }

/-- Payload { type: "sender-ready" }. -/
def senderReadyMsg : SignalMessage :=
  { type := "sender-ready" }

/-- Payload { type: "joined", role }. -/
def joinedMsg (role : Option String) : SignalMessage :=
  { type := "joined", role := role }

/-- Payload { type: "sender-left" }. -/
def senderLeftMsg : SignalMessage :=
  { type := "sender-left" }

/-- Payload { type: "receiver-left", peerId }. -/
def receiverLeftMsg (peerId : Option String) : SignalMessage :=
  { type := "receiver-left", peerId := peerId }

/-- Forwarded relay payload: { ...msg, from: peerId }. -/
def withFrom (msg : SignalMessage) (peerId : Option String) : SignalMessage :=
  { msg with from' := peerId }

/-- The join branch of the message handler (server.ts lines 183-234).  k is
the random draw used if a room has to be created. -/
def handleJoin (st : ServerState) (ws : SessionId) (msg : SignalMessage)
    (k : Nat) : ServerState × Out :=
  if ¬ truthy msg.room ∨ ¬ truthy msg.role then (st, [])
  else
    let roomId := msg.room.getD ""
    let rr := getRoom st.rooms roomId k
    let rooms1 := rr.1
    let room := rr.2
    if msg.role = some "receiver" ∧ msg.code ≠ some room.code then
      ({ st with rooms := rooms1 },
       [(ws, joinDeniedMsg
           (if truthy msg.code then "Invalid room code" else "Room code required"))])
    else
      let meta := getMeta st.socketMeta ws
      let meta1 := { meta with roomName := msg.room, role := msg.role }
      let metas1 := mapSet st.socketMeta ws meta1
      let branch : ServerState × Out :=
        if msg.role = some "sender" then
          let demote :
              List (SessionId × SocketMeta) × List SessionId × Out :=
            match room.sender with
            | some oldS =>
                if oldS ≠ ws then
                  let oldMeta := getMeta metas1 oldS
                  (mapSet metas1 oldS { oldMeta with role := some "receiver" },
                   setAdd room.receivers oldS,
                   [(oldS, roleChangedMsg)])
                else (metas1, room.receivers, [])
            | none => (metas1, room.receivers, [])
          let metas2 := demote.1
          let receivers1 := demote.2.1
          let room1 : Room :=
            { sender := some ws, receivers := receivers1, code := room.code }
          ({ st with rooms := mapSet rooms1 roomId room1, socketMeta := metas2 },
           demote.2.2 ++ [(ws, roomCodeMsg room.code)]
             ++ receivers1.map (fun r => (r, senderReadyMsg)))
        else
          let receivers1 := setAdd room.receivers ws
          let room1 : Room := { room with receivers := receivers1 }
          ({ st with rooms := mapSet rooms1 roomId room1, socketMeta := metas1 },
           if room.sender.isSome then [(ws, senderReadyMsg)] else [])
      (branch.1, branch.2 ++ [(ws, joinedMsg msg.role)])

/-- The relay branch of the message handler for offer, answer and
ice-candidate (server.ts lines 237-263).  The state is never mutated. -/
def handleRelay (st : ServerState) (ws : SessionId) (msg : SignalMessage) :
    ServerState × Out :=
  let meta := getMeta st.socketMeta ws
  if ¬ truthy meta.roomName then (st, [])
  else
    match mapGet st.rooms (meta.roomName.getD "") with
    | none => (st, [])
    | some room =>
        if meta.role = some "sender" then
          if truthy msg.to' then
            match room.receivers.find?
                (fun r => (getMeta st.socketMeta r).peerId == msg.to') with
            | some r => (st, [(r, withFrom msg meta.peerId)])
            | none => (st, [])
          else
            (st, (room.receivers.filter (fun r => isOpen st r)).map
                   (fun r => (r, withFrom msg meta.peerId)))
        else
          match room.sender with
          | some snd =>
              if isOpen st snd then (st, [(snd, withFrom msg meta.peerId)])
              else (st, [])
          | none => (st, [])

/-- The message event handler (server.ts lines 165-264): register-id, join,
relay; anything else is ignored. -/
def handleMessage (st : ServerState) (ws : SessionId) (msg : SignalMessage)
    (k : Nat) : ServerState × Out :=
  if msg.type = "register-id" then
    let meta := getMeta st.socketMeta ws
    ({ st with socketMeta := mapSet st.socketMeta ws { meta with peerId := msg.peerId } },
     [])
  else if msg.type = "join" then handleJoin st ws msg k
  else if msg.type = "offer" ∨ msg.type = "answer" ∨ msg.type = "ice-candidate" then
    handleRelay st ws msg
  else (st, [])

/-- The close event handler (server.ts lines 266-300): delete the metadata,
reconcile the room the session was in, and garbage-collect the room if it
became empty. -/
def handleClose (st : ServerState) (ws : SessionId) : ServerState × Out :=
  let meta := getMeta st.socketMeta ws
  let metas1 := mapErase st.socketMeta ws
  let opens1 := setDelete st.openConns ws
  let st1 : ServerState := { st with socketMeta := metas1, openConns := opens1 }
  if ¬ truthy meta.roomName then (st1, [])
  else
    let roomId := meta.roomName.getD ""
    match mapGet st.rooms roomId with
    | none => (st1, [])
    | some room =>
        let branch : Room × Out :=
          if meta.role = some "sender" ∧ room.sender = some ws then
            ({ room with sender := none },
             (room.receivers.filter (fun r => isOpen st1 r)).map
               (fun r => (r, senderLeftMsg)))
          else
            ({ room with receivers := setDelete room.receivers ws },
             match room.sender with
             | some snd =>
                 if isOpen st1 snd then [(snd, receiverLeftMsg meta.peerId)]
                 else []
             | none => [])
        let room1 := branch.1
        let rooms1 :=
          if room1.sender = none ∧ room1.receivers = [] then
            mapErase st.rooms roomId
          else mapSet st.rooms roomId room1
        ({ st1 with rooms := rooms1 }, branch.2)

/-- The connection event handler: socketMeta.set(ws, { role: null }); the
fresh socket is OPEN. -/
def handleConnection (st : ServerState) (ws : SessionId) : ServerState :=
  { st with socketMeta := mapSet st.socketMeta ws freshMeta,
            openConns := setAdd st.openConns ws }

/-- An externally triggered event of the hub. connect is the connection
event; message k supplies the random draw for a possible room creation;
drop marks the transport as no longer OPEN (readyState leaves OPEN before
the close event fires); close is the close event. -/
inductive Op where
  | connect (ws : SessionId)
  | message (ws : SessionId) (msg : SignalMessage) (k : Nat)
  | drop (ws : SessionId)
  | close (ws : SessionId)
  deriving Repr, DecidableEq

/-- One step of the hub: resulting state and the messages sent. -/
def applyOp (st : ServerState) : Op → ServerState × Out
  | .connect ws => (handleConnection st ws, [])
  | .message ws msg k => handleMessage st ws msg k
  | .drop ws => ({ st with openConns := setDelete st.openConns ws }, [])
  | .close ws => handleClose st ws

/-- The state at process start: no rooms, no sockets. -/
def initialState : ServerState :=
  { rooms := [], socketMeta := [], openConns := [] }

/-- States reachable from the initial state.  Events fire only for sockets
that exist (connect requires a fresh socket, message and close a registered
one).  When the flag sj is true, traces are additionally restricted to the
protocol discipline in which each session joins at most once: a join
message is only processed for a session with no prior room. -/
inductive ReachableG : Bool → ServerState → Prop where
  | init (sj : Bool) : ReachableG sj initialState
  | connect (sj : Bool) (s : ServerState) (ws : SessionId) :
      ReachableG sj s → mapGet s.socketMeta ws = none →
      ReachableG sj (handleConnection s ws)
  | message (sj : Bool) (s : ServerState) (ws : SessionId)
      (msg : SignalMessage) (k : Nat) :
      ReachableG sj s → (mapGet s.socketMeta ws).isSome →
      (sj = true → msg.type = "join" → (getMeta s.socketMeta ws).roomName = none) →
      ReachableG sj (handleMessage s ws msg k).1
  | drop (sj : Bool) (s : ServerState) (ws : SessionId) :
      ReachableG sj s →
      ReachableG sj { s with openConns := setDelete s.openConns ws }
  | close (sj : Bool) (s : ServerState) (ws : SessionId) :
      ReachableG sj s → (mapGet s.socketMeta ws).isSome →
      ReachableG sj (handleClose s ws).1

/-- Reachable by arbitrary clients (no protocol discipline assumed). -/
def Reachable (s : ServerState) : Prop := ReachableG false s

/-- Reachable under the discipline that each session joins at most once. -/
def ReachableSJ (s : ServerState) : Prop := ReachableG true s

/-! Lemmas about the association-list maps and the set model. -/

section MapLemmas

variable {α β : Type} [DecidableEq α]

theorem mapGet_set_self (m : List (α × β)) (k : α) (v : β) :
    mapGet (mapSet m k v) k = some v := by
  induction m with
  | nil => simp [mapSet, mapGet]
  | cons p rest ih =>
      obtain ⟨k0, v0⟩ := p
      by_cases h : k0 = k
      · simp [mapSet, h, mapGet]
      · simp [mapSet, h, mapGet, ih]

theorem mapGet_set_ne (m : List (α × β)) (k k' : α) (v : β) (h : k' ≠ k) :
    mapGet (mapSet m k v) k' = mapGet m k' := by
  induction m with
  | nil => simp [mapSet, mapGet, Ne.symm h]
  | cons p rest ih =>
      obtain ⟨k0, v0⟩ := p
      by_cases h0 : k0 = k
      · subst h0
        simp [mapSet, mapGet, Ne.symm h]
      · by_cases h1 : k0 = k'
        · simp [mapSet, h0, mapGet, h1, h]
        · simp [mapSet, h0, mapGet, h1, ih]

theorem mapGet_erase_ne (m : List (α × β)) (k k' : α) (h : k' ≠ k) :
    mapGet (mapErase m k) k' = mapGet m k' := by
  induction m with
  | nil => simp [mapErase]
  | cons p rest ih =>
      obtain ⟨k0, v0⟩ := p
      by_cases h0 : k0 = k
      · subst h0
        simp [mapErase, mapGet, Ne.symm h]
      · by_cases h1 : k0 = k'
        · simp [mapErase, h0, mapGet, h1, h]
        · simp [mapErase, h0, mapGet, h1, ih]

theorem mapGet_eq_none_iff (m : List (α × β)) (k : α) :
    mapGet m k = none ↔ k ∉ m.map Prod.fst := by
  induction m with
  | nil => simp [mapGet]
  | cons p rest ih =>
      obtain ⟨k0, v0⟩ := p
      by_cases h : k0 = k
      · simp [mapGet, h]
      · simp [mapGet, h, ih, Ne.symm h]

/-- Well-formedness of the association-list maps: keys occur once. -/
def KeysNodup (m : List (α × β)) : Prop := (m.map Prod.fst).Nodup

theorem mem_keys_set (m : List (α × β)) (k a : α) (v : β)
    (h : a ∈ (mapSet m k v).map Prod.fst) : a ∈ m.map Prod.fst ∨ a = k := by
  induction m with
  | nil => exact Or.inr (by simpa [mapSet] using h)
  | cons p rest ih =>
      obtain ⟨k0, v0⟩ := p
      by_cases h0 : k0 = k
      · subst h0
        exact Or.inl (by simpa [mapSet] using h)
      · simp only [mapSet, if_neg h0, List.map_cons, List.mem_cons] at h
        rcases h with h | h
        · exact Or.inl (by simp [h])
        · rcases ih h with h' | h'
          · exact Or.inl (by simp [h'])
          · exact Or.inr h'

theorem keysNodup_set (m : List (α × β)) (k : α) (v : β)
    (h : KeysNodup m) : KeysNodup (mapSet m k v) := by
  induction m with
  | nil => simp [KeysNodup, mapSet]
  | cons p rest ih =>
      obtain ⟨k0, v0⟩ := p
      simp only [KeysNodup, List.map_cons, List.nodup_cons] at h
      by_cases h0 : k0 = k
      · subst h0
        simpa [KeysNodup, mapSet] using h
      · have tail := ih h.2
        simp only [KeysNodup, mapSet, if_neg h0, List.map_cons, List.nodup_cons]
        refine ⟨fun hmem => ?_, tail⟩
        rcases mem_keys_set rest k k0 v hmem with h' | h'
        · exact h.1 h'
        · exact h0 h'

theorem mem_keys_erase (m : List (α × β)) (k a : α)
    (h : a ∈ (mapErase m k).map Prod.fst) : a ∈ m.map Prod.fst := by
  induction m with
  | nil => simp [mapErase] at h
  | cons p rest ih =>
      obtain ⟨k0, v0⟩ := p
      by_cases h0 : k0 = k
      · subst h0
        simp only [mapErase, if_pos rfl, ite_true, eq_self_iff_true] at h
        exact List.mem_cons.2 (Or.inr (by simpa using h))
      · simp only [mapErase, if_neg h0, List.map_cons, List.mem_cons] at h
        rcases h with h | h
        · exact List.mem_cons.2 (Or.inl h)
        · exact List.mem_cons.2 (Or.inr (ih h))

theorem keysNodup_erase (m : List (α × β)) (k : α)
    (h : KeysNodup m) : KeysNodup (mapErase m k) := by
  induction m with
  | nil => simp [KeysNodup, mapErase]
  | cons p rest ih =>
      obtain ⟨k0, v0⟩ := p
      simp only [KeysNodup, List.map_cons, List.nodup_cons] at h
      by_cases h0 : k0 = k
      · subst h0
        simpa [KeysNodup, mapErase] using h.2
      · have tail := ih h.2
        simp only [KeysNodup, mapErase, if_neg h0, List.map_cons, List.nodup_cons]
        exact ⟨fun hmem => h.1 (mem_keys_erase rest k k0 hmem), tail⟩

theorem mapGet_erase_self (m : List (α × β)) (k : α) (h : KeysNodup m) :
    mapGet (mapErase m k) k = none := by
  induction m with
  | nil => simp [mapErase, mapGet]
  | cons p rest ih =>
      obtain ⟨k0, v0⟩ := p
      simp only [KeysNodup, List.map_cons, List.nodup_cons] at h
      by_cases h0 : k0 = k
      · subst h0
        have : mapErase ((k0, v0) :: rest) k0 = rest := by simp [mapErase]
        rw [this]
        exact (mapGet_eq_none_iff rest k0).2 h.1
      · simp [mapErase, h0, mapGet, ih h.2]

theorem mapGet_mem (m : List (α × β)) (k : α) (v : β)
    (h : mapGet m k = some v) : (k, v) ∈ m := by
  induction m with
  | nil => simp [mapGet] at h
  | cons p rest ih =>
      obtain ⟨k0, v0⟩ := p
      by_cases h0 : k0 = k
      · subst h0
        have h' : v0 = v := by simpa [mapGet] using h
        subst h'
        exact List.mem_cons_self _ _
      · simp only [mapGet, if_neg h0] at h
        exact List.mem_cons.2 (Or.inr (ih h))

theorem mem_setAdd (l : List α) (x a : α) :
    a ∈ setAdd l x ↔ a ∈ l ∨ a = x := by
  unfold setAdd
  split
  · next hmem => constructor
                 · exact Or.inl
                 · rintro (h | rfl)
                   · exact h
                   · exact hmem
  · simp

theorem setAdd_nodup (l : List α) (x : α) (h : l.Nodup) :
    (setAdd l x).Nodup := by
  unfold setAdd
  split
  · exact h
  · next hmem => simpa [List.nodup_append] using ⟨h, hmem⟩

theorem mem_setDelete (l : List α) (x a : α) :
    a ∈ setDelete l x ↔ a ∈ l ∧ a ≠ x := by
  simp [setDelete]

theorem setDelete_nodup (l : List α) (x : α) (h : l.Nodup) :
    (setDelete l x).Nodup :=
  h.filter _

end MapLemmas

theorem getMeta_set_self (metas : List (SessionId × SocketMeta)) (ws : SessionId)
    (m : SocketMeta) : getMeta (mapSet metas ws m) ws = m := by
  simp [getMeta, mapGet_set_self]

theorem getMeta_set_ne (metas : List (SessionId × SocketMeta)) (ws w : SessionId)
    (m : SocketMeta) (h : w ≠ ws) :
    getMeta (mapSet metas ws m) w = getMeta metas w := by
  simp [getMeta, mapGet_set_ne _ _ _ _ h]

section MoreMapLemmas

variable {α β : Type} [DecidableEq α]

theorem mapGet_of_mem (m : List (α × β)) (k : α) (v : β)
    (hnd : KeysNodup m) (hmem : (k, v) ∈ m) : mapGet m k = some v := by
  induction m with
  | nil => simp at hmem
  | cons p rest ih =>
      obtain ⟨k0, v0⟩ := p
      simp only [KeysNodup, List.map_cons, List.nodup_cons] at hnd
      by_cases hk : k0 = k
      · subst hk
        rcases List.mem_cons.1 hmem with h | h
        · injection h with h1 h2
          simp [mapGet, h2]
        · exact absurd (List.mem_map_of_mem Prod.fst h) hnd.1
      · rcases List.mem_cons.1 hmem with h | h
        · exact absurd (Prod.ext_iff.1 h).1 (fun he => hk he.symm)
        · simp only [mapGet, if_neg hk]
          exact ih hnd.2 h

theorem mapGet_erase_some (m : List (α × β)) (k x : α) (v : β)
    (hnd : KeysNodup m) (h : mapGet (mapErase m k) x = some v) :
    mapGet m x = some v := by
  by_cases hx : x = k
  · subst hx
    rw [mapGet_erase_self m x hnd] at h
    exact absurd h (by simp)
  · rwa [mapGet_erase_ne m k x hx] at h

end MoreMapLemmas

/-! Decimal-digit facts about Nat.repr, used for the shape of room codes. -/

theorem digitChar_isDigit (m : Nat) (h : m < 10) :
    (Nat.digitChar m).isDigit = true := by
  interval_cases m <;> decide

theorem toDigitsCore_digits (f n : Nat) (ds : List Char)
    (hds : ∀ c ∈ ds, c.isDigit = true) :
    ∀ c ∈ Nat.toDigitsCore 10 f n ds, c.isDigit = true := by
  induction f generalizing n ds with
  | zero => simpa [Nat.toDigitsCore] using hds
  | succ f ih =>
      intro c hc
      rw [Nat.toDigitsCore] at hc
      by_cases h0 : n / 10 = 0
      · simp only [h0, if_pos rfl] at hc
        rcases List.mem_cons.1 hc with h | h
        · subst h; exact digitChar_isDigit _ (Nat.mod_lt _ (by omega))
        · exact hds c h
      · simp only [if_neg h0] at hc
        refine ih (n / 10) (Nat.digitChar (n % 10) :: ds) ?_ c hc
        intro c' hc'
        rcases List.mem_cons.1 hc' with h | h
        · subst h; exact digitChar_isDigit _ (Nat.mod_lt _ (by omega))
        · exact hds c' h

theorem toDigitsCore_len (n : Nat) :
    ∀ f ds, n < f →
      (Nat.toDigitsCore 10 f n ds).length = Nat.log 10 n + 1 + ds.length := by
  induction n using Nat.strong_induction_on with
  | _ n ih =>
    intro f ds hf
    match f, hf with
    | f + 1, hf =>
      rw [Nat.toDigitsCore]
      by_cases h0 : n / 10 = 0
      · have hn : n < 10 := by omega
        simp [h0, Nat.log_eq_zero_iff.2 (Or.inl hn)]
        omega
      · have hge : 10 ≤ n := by
          by_contra hlt
          exact h0 (Nat.div_eq_of_lt (by omega))
        have hdiv : n / 10 < n := Nat.div_lt_self (by omega) (by omega)
        rw [if_neg h0, ih (n / 10) hdiv f (Nat.digitChar (n % 10) :: ds) (by omega)]
        have hlog : Nat.log 10 (n / 10) = Nat.log 10 n - 1 := Nat.log_div_base 10 n
        have hpos : 0 < Nat.log 10 n := Nat.log_pos (by omega) hge
        simp only [List.length_cons]
        omega

theorem repr_length_four (n : Nat) (h1 : 1000 ≤ n) (h2 : n ≤ 9999) :
    (Nat.repr n).length = 4 := by
  have hlen : (Nat.repr n).length = Nat.log 10 n + 1 := by
    show (Nat.toDigits 10 n).asString.length = _
    rw [Nat.toDigits]
    have := toDigitsCore_len n (n + 1) [] (by omega)
    simpa [List.asString, String.length] using this
  have hp1 : 10 ^ 3 ≤ n := by
    have : (10 : Nat) ^ 3 = 1000 := by norm_num
    omega
  have hp2 : n < 10 ^ (3 + 1) := by
    have : (10 : Nat) ^ (3 + 1) = 10000 := by norm_num
    omega
  have hl : Nat.log 10 n = 3 := Nat.log_eq_of_pow_le_of_lt_pow hp1 hp2
  omega

theorem repr_digits (n : Nat) : ∀ c ∈ (Nat.repr n).toList, c.isDigit = true := by
  show ∀ c ∈ (Nat.toDigits 10 n).asString.toList, c.isDigit = true
  rw [Nat.toDigits]
  intro c hc
  refine toDigitsCore_digits (n + 1) n [] (by simp) c ?_
  simpa [List.asString, String.toList, String.data] using hc

/-- Shape of every access code the hub generates: the decimal rendering of
an integer in 1000..9999, hence a string of exactly four decimal digits. -/
def ValidCode (c : String) : Prop :=
  ∃ n, 1000 ≤ n ∧ n ≤ 9999 ∧ c = Nat.repr n

theorem validCode_generate (k : Nat) : ValidCode (generateRoomCode k) := by
  refine ⟨1000 + k % 9000, by omega, ?_, rfl⟩
  have := Nat.mod_lt k (show 0 < 9000 by omega)
  omega

theorem validCode_length_digits (c : String) (h : ValidCode c) :
    c.length = 4 ∧ ∀ ch ∈ c.toList, ch.isDigit = true := by
  obtain ⟨n, h1, h2, rfl⟩ := h
  exact ⟨repr_length_four n h1 h2, repr_digits n⟩

/-! The global consistency invariant: the two maps are well-formed, receiver
sets are duplicate-free, and room membership and session metadata are two
views of the same relation.  It is maintained by every event under the
discipline that a session only joins while it has no room. -/

/-- Consistency of a hub state. -/
structure Inv (s : ServerState) : Prop where
  roomsNodup : KeysNodup s.rooms
  metasNodup : KeysNodup s.socketMeta
  recvNodup : ∀ rn room, mapGet s.rooms rn = some room → room.receivers.Nodup
  senderMeta : ∀ rn room ws, mapGet s.rooms rn = some room →
      room.sender = some ws →
      ∃ meta, mapGet s.socketMeta ws = some meta ∧
        meta.role = some "sender" ∧ meta.roomName = some rn
  recvMeta : ∀ rn room ws, mapGet s.rooms rn = some room →
      ws ∈ room.receivers →
      ∃ meta, mapGet s.socketMeta ws = some meta ∧
        truthy meta.role ∧ meta.role ≠ some "sender" ∧ meta.roomName = some rn
  metaRoom : ∀ ws meta rn, mapGet s.socketMeta ws = some meta →
      meta.roomName = some rn →
      rn ≠ "" ∧ truthy meta.role ∧
      ∃ room, mapGet s.rooms rn = some room ∧
        (meta.role = some "sender" → room.sender = some ws) ∧
        (meta.role ≠ some "sender" → ws ∈ room.receivers)

theorem inv_initial : Inv initialState := by
  refine ⟨?_, ?_, ?_, ?_, ?_, ?_⟩ <;> simp [initialState, KeysNodup, mapGet]

theorem inv_congr (s s' : ServerState) (hr : s'.rooms = s.rooms)
    (hm : s'.socketMeta = s.socketMeta) (h : Inv s) : Inv s' := by
  obtain ⟨h1, h2, h3, h4, h5, h6⟩ := h
  refine ⟨?_, ?_, ?_, ?_, ?_, ?_⟩ <;> simp only [hr, hm]
  exacts [h1, h2, h3, h4, h5, h6]

theorem inv_connect (s : ServerState) (ws : SessionId) (h : Inv s)
    (hfresh : mapGet s.socketMeta ws = none) : Inv (handleConnection s ws) := by
  obtain ⟨hrn, hmn, hrecvN, hsm, hrm, hmr⟩ := h
  refine ⟨?_, ?_, ?_, ?_, ?_, ?_⟩ <;> dsimp [handleConnection]
  · exact hrn
  · exact keysNodup_set _ _ _ hmn
  · exact hrecvN
  · intro rn room w hg hs
    obtain ⟨m, hm, hrole, hrn'⟩ := hsm rn room w hg hs
    have hw : w ≠ ws := by
      rintro rfl
      rw [hfresh] at hm
      exact absurd hm (by simp)
    exact ⟨m, by rw [mapGet_set_ne _ _ _ _ hw]; exact hm, hrole, hrn'⟩
  · intro rn room w hg hs
    obtain ⟨m, hm, htr, hrole, hrn'⟩ := hrm rn room w hg hs
    have hw : w ≠ ws := by
      rintro rfl
      rw [hfresh] at hm
      exact absurd hm (by simp)
    exact ⟨m, by rw [mapGet_set_ne _ _ _ _ hw]; exact hm, htr, hrole, hrn'⟩
  · intro w m rn hg hrn'
    by_cases hw : w = ws
    · subst hw
      rw [mapGet_set_self] at hg
      obtain rfl : freshMeta = m := by simpa using hg
      simp [freshMeta] at hrn'
    · rw [mapGet_set_ne _ _ _ _ hw] at hg
      exact hmr w m rn hg hrn'

theorem inv_setPeerId (s : ServerState) (ws : SessionId) (p : Option String)
    (h : Inv s) :
    Inv { s with socketMeta :=
            mapSet s.socketMeta ws { getMeta s.socketMeta ws with peerId := p } } := by
  obtain ⟨hrn, hmn, hrecvN, hsm, hrm, hmr⟩ := h
  refine ⟨?_, ?_, ?_, ?_, ?_, ?_⟩ <;> dsimp
  · exact hrn
  · exact keysNodup_set _ _ _ hmn
  · exact hrecvN
  · intro rn room w hg hs
    obtain ⟨m, hm, hrole, hrn'⟩ := hsm rn room w hg hs
    by_cases hw : w = ws
    · subst hw
      refine ⟨{ getMeta s.socketMeta w with peerId := p }, mapGet_set_self _ _ _, ?_, ?_⟩
      · simpa [getMeta, hm] using hrole
      · simpa [getMeta, hm] using hrn'
    · exact ⟨m, by rw [mapGet_set_ne _ _ _ _ hw]; exact hm, hrole, hrn'⟩
  · intro rn room w hg hs
    obtain ⟨m, hm, htr, hrole, hrn'⟩ := hrm rn room w hg hs
    by_cases hw : w = ws
    · subst hw
      refine ⟨{ getMeta s.socketMeta w with peerId := p }, mapGet_set_self _ _ _, ?_, ?_, ?_⟩
      · simpa [getMeta, hm] using htr
      · simpa [getMeta, hm] using hrole
      · simpa [getMeta, hm] using hrn'
    · exact ⟨m, by rw [mapGet_set_ne _ _ _ _ hw]; exact hm, htr, hrole, hrn'⟩
  · intro w m rn hg hrn'
    by_cases hw : w = ws
    · subst hw
      rw [mapGet_set_self] at hg
      obtain rfl : { getMeta s.socketMeta w with peerId := p } = m := by simpa using hg
      cases hm0 : mapGet s.socketMeta w with
      | none => simp [getMeta, hm0, freshMeta] at hrn'
      | some m0 =>
          have hrn0 : m0.roomName = some rn := by simpa [getMeta, hm0] using hrn'
          obtain ⟨hne, htr, room, hroom, hs1, hs2⟩ := hmr w m0 rn hm0 hrn0
          refine ⟨hne, by simpa [getMeta, hm0] using htr, room, hroom, ?_, ?_⟩
          · intro hrole
            exact hs1 (by simpa [getMeta, hm0] using hrole)
          · intro hrole
            exact hs2 (by simpa [getMeta, hm0] using hrole)
    · rw [mapGet_set_ne _ _ _ _ hw] at hg
      exact hmr w m rn hg hrn'

theorem inv_eraseMeta (s : ServerState) (ws : SessionId) (h : Inv s)
    (hnm : (getMeta s.socketMeta ws).roomName = none) (o : List SessionId) :
    Inv { s with socketMeta := mapErase s.socketMeta ws, openConns := o } := by
  obtain ⟨hrn, hmn, hrecvN, hsm, hrm, hmr⟩ := h
  refine ⟨?_, ?_, ?_, ?_, ?_, ?_⟩ <;> dsimp
  · exact hrn
  · exact keysNodup_erase _ _ hmn
  · exact hrecvN
  · intro rn room w hg hs
    obtain ⟨m, hm, hrole, hrn'⟩ := hsm rn room w hg hs
    have hw : w ≠ ws := by
      rintro rfl
      have : m.roomName = none := by simpa [getMeta, hm] using hnm
      rw [this] at hrn'
      exact absurd hrn' (by simp)
    exact ⟨m, by rw [mapGet_erase_ne _ _ _ hw]; exact hm, hrole, hrn'⟩
  · intro rn room w hg hs
    obtain ⟨m, hm, htr, hrole, hrn'⟩ := hrm rn room w hg hs
    have hw : w ≠ ws := by
      rintro rfl
      have : m.roomName = none := by simpa [getMeta, hm] using hnm
      rw [this] at hrn'
      exact absurd hrn' (by simp)
    exact ⟨m, by rw [mapGet_erase_ne _ _ _ hw]; exact hm, htr, hrole, hrn'⟩
  · intro w m rn hg hrn'
    have hw : w ≠ ws := by
      rintro rfl
      rw [mapGet_erase_self _ _ hmn] at hg
      exact absurd hg (by simp)
    rw [mapGet_erase_ne _ _ _ hw] at hg
    exact hmr w m rn hg hrn'

theorem inv_close_sender_erase (s : ServerState) (ws : SessionId) (rn : String)
    (m0 : SocketMeta) (room : Room) (h : Inv s)
    (hgm : mapGet s.socketMeta ws = some m0) (hrnm0 : m0.roomName = some rn)
    (hroom : mapGet s.rooms rn = some room) (hsw : room.sender = some ws)
    (hempty : room.receivers = []) :
    Inv { s with rooms := mapErase s.rooms rn,
                 socketMeta := mapErase s.socketMeta ws,
                 openConns := setDelete s.openConns ws } := by
  refine ⟨?_, ?_, ?_, ?_, ?_, ?_⟩ <;> dsimp
  · exact keysNodup_erase _ _ h.roomsNodup
  · exact keysNodup_erase _ _ h.metasNodup
  · intro rn' room' hg
    exact h.recvNodup rn' room' (mapGet_erase_some _ _ _ _ h.roomsNodup hg)
  · intro rn' room' w hg hs
    have hrn' : rn' ≠ rn := by
      rintro rfl
      rw [mapGet_erase_self _ _ h.roomsNodup] at hg
      exact absurd hg (by simp)
    rw [mapGet_erase_ne _ _ _ hrn'] at hg
    obtain ⟨m, hm, hrolem, hrnm⟩ := h.senderMeta rn' room' w hg hs
    have hw : w ≠ ws := by
      rintro rfl
      rw [hgm] at hm
      obtain rfl := Option.some.inj hm
      rw [hrnm0] at hrnm
      exact hrn' (Option.some.inj hrnm).symm
    exact ⟨m, by rw [mapGet_erase_ne _ _ _ hw]; exact hm, hrolem, hrnm⟩
  · intro rn' room' w hg hs
    have hrn' : rn' ≠ rn := by
      rintro rfl
      rw [mapGet_erase_self _ _ h.roomsNodup] at hg
      exact absurd hg (by simp)
    rw [mapGet_erase_ne _ _ _ hrn'] at hg
    obtain ⟨m, hm, htrm, hrolem, hrnm⟩ := h.recvMeta rn' room' w hg hs
    have hw : w ≠ ws := by
      rintro rfl
      rw [hgm] at hm
      obtain rfl := Option.some.inj hm
      rw [hrnm0] at hrnm
      exact hrn' (Option.some.inj hrnm).symm
    exact ⟨m, by rw [mapGet_erase_ne _ _ _ hw]; exact hm, htrm, hrolem, hrnm⟩
  · intro w m rn'' hg hrnm
    have hw : w ≠ ws := by
      rintro rfl
      rw [mapGet_erase_self _ _ h.metasNodup] at hg
      exact absurd hg (by simp)
    have hg0 : mapGet s.socketMeta w = some m :=
      mapGet_erase_some _ _ _ _ h.metasNodup hg
    obtain ⟨hne'', htr'', room'', hroom'', hc1, hc2⟩ := h.metaRoom w m rn'' hg0 hrnm
    have hrn'' : rn'' ≠ rn := by
      rintro rfl
      rw [hroom] at hroom''
      obtain rfl := Option.some.inj hroom''
      by_cases hr : m.role = some "sender"
      · have hcc := hc1 hr
        rw [hsw] at hcc
        exact hw (Option.some.inj hcc).symm
      · have hcc := hc2 hr
        rw [hempty] at hcc
        simp at hcc
    refine ⟨hne'', htr'', room'', ?_, hc1, hc2⟩
    rw [mapGet_erase_ne _ _ _ hrn'']
    exact hroom''

theorem inv_close_sender_set (s : ServerState) (ws : SessionId) (rn : String)
    (m0 : SocketMeta) (room : Room) (h : Inv s)
    (hgm : mapGet s.socketMeta ws = some m0) (hrnm0 : m0.roomName = some rn)
    (hrole : m0.role = some "sender")
    (hroom : mapGet s.rooms rn = some room) (hsw : room.sender = some ws) :
    Inv { s with rooms := mapSet s.rooms rn { room with sender := none },
                 socketMeta := mapErase s.socketMeta ws,
                 openConns := setDelete s.openConns ws } := by
  have hnotmem : ws ∉ room.receivers := by
    intro hmem
    obtain ⟨m', hm', -, hrole', -⟩ := h.recvMeta rn room ws hroom hmem
    rw [hgm] at hm'
    obtain rfl := Option.some.inj hm'
    exact hrole' hrole
  refine ⟨?_, ?_, ?_, ?_, ?_, ?_⟩ <;> dsimp
  · exact keysNodup_set _ _ _ h.roomsNodup
  · exact keysNodup_erase _ _ h.metasNodup
  · intro rn' room' hg
    by_cases he : rn' = rn
    · subst he
      rw [mapGet_set_self] at hg
      obtain rfl := Option.some.inj hg
      exact h.recvNodup rn' room hroom
    · rw [mapGet_set_ne _ _ _ _ he] at hg
      exact h.recvNodup rn' room' hg
  · intro rn' room' w hg hs
    by_cases he : rn' = rn
    · subst he
      rw [mapGet_set_self] at hg
      obtain rfl := Option.some.inj hg
      simp at hs
    · rw [mapGet_set_ne _ _ _ _ he] at hg
      obtain ⟨m, hm, hrolem, hrnm⟩ := h.senderMeta rn' room' w hg hs
      have hw : w ≠ ws := by
        rintro rfl
        rw [hgm] at hm
        obtain rfl := Option.some.inj hm
        rw [hrnm0] at hrnm
        exact he (Option.some.inj hrnm).symm
      exact ⟨m, by rw [mapGet_erase_ne _ _ _ hw]; exact hm, hrolem, hrnm⟩
  · intro rn' room' w hg hs
    by_cases he : rn' = rn
    · subst he
      rw [mapGet_set_self] at hg
      obtain rfl := Option.some.inj hg
      dsimp at hs
      obtain ⟨m, hm, htrm, hrolem, hrnm⟩ := h.recvMeta rn' room w hroom hs
      have hw : w ≠ ws := fun he' => hnotmem (he' ▸ hs)
      exact ⟨m, by rw [mapGet_erase_ne _ _ _ hw]; exact hm, htrm, hrolem, hrnm⟩
    · rw [mapGet_set_ne _ _ _ _ he] at hg
      obtain ⟨m, hm, htrm, hrolem, hrnm⟩ := h.recvMeta rn' room' w hg hs
      have hw : w ≠ ws := by
        rintro rfl
        rw [hgm] at hm
        obtain rfl := Option.some.inj hm
        rw [hrnm0] at hrnm
        exact he (Option.some.inj hrnm).symm
      exact ⟨m, by rw [mapGet_erase_ne _ _ _ hw]; exact hm, htrm, hrolem, hrnm⟩
  · intro w m rn'' hg hrnm
    have hw : w ≠ ws := by
      rintro rfl
      rw [mapGet_erase_self _ _ h.metasNodup] at hg
      exact absurd hg (by simp)
    have hg0 : mapGet s.socketMeta w = some m :=
      mapGet_erase_some _ _ _ _ h.metasNodup hg
    obtain ⟨hne'', htr'', room'', hroom'', hc1, hc2⟩ := h.metaRoom w m rn'' hg0 hrnm
    by_cases he : rn'' = rn
    · subst he
      rw [hroom] at hroom''
      obtain rfl := Option.some.inj hroom''
      refine ⟨hne'', htr'', { room with sender := none }, mapGet_set_self _ _ _, ?_, ?_⟩
      · intro hr
        exfalso
        have hcc := hc1 hr
        rw [hsw] at hcc
        exact hw (Option.some.inj hcc).symm
      · intro hr
        exact hc2 hr
    · refine ⟨hne'', htr'', room'', ?_, hc1, hc2⟩
      rw [mapGet_set_ne _ _ _ _ he]
      exact hroom''

theorem inv_close_recv_erase (s : ServerState) (ws : SessionId) (rn : String)
    (m0 : SocketMeta) (room : Room) (h : Inv s)
    (hgm : mapGet s.socketMeta ws = some m0) (hrnm0 : m0.roomName = some rn)
    (hroom : mapGet s.rooms rn = some room) (hsender : room.sender = none)
    (hdel : setDelete room.receivers ws = []) :
    Inv { s with rooms := mapErase s.rooms rn,
                 socketMeta := mapErase s.socketMeta ws,
                 openConns := setDelete s.openConns ws } := by
  refine ⟨?_, ?_, ?_, ?_, ?_, ?_⟩ <;> dsimp
  · exact keysNodup_erase _ _ h.roomsNodup
  · exact keysNodup_erase _ _ h.metasNodup
  · intro rn' room' hg
    exact h.recvNodup rn' room' (mapGet_erase_some _ _ _ _ h.roomsNodup hg)
  · intro rn' room' w hg hs
    have hrn' : rn' ≠ rn := by
      rintro rfl
      rw [mapGet_erase_self _ _ h.roomsNodup] at hg
      exact absurd hg (by simp)
    rw [mapGet_erase_ne _ _ _ hrn'] at hg
    obtain ⟨m, hm, hrolem, hrnm⟩ := h.senderMeta rn' room' w hg hs
    have hw : w ≠ ws := by
      rintro rfl
      rw [hgm] at hm
      obtain rfl := Option.some.inj hm
      rw [hrnm0] at hrnm
      exact hrn' (Option.some.inj hrnm).symm
    exact ⟨m, by rw [mapGet_erase_ne _ _ _ hw]; exact hm, hrolem, hrnm⟩
  · intro rn' room' w hg hs
    have hrn' : rn' ≠ rn := by
      rintro rfl
      rw [mapGet_erase_self _ _ h.roomsNodup] at hg
      exact absurd hg (by simp)
    rw [mapGet_erase_ne _ _ _ hrn'] at hg
    obtain ⟨m, hm, htrm, hrolem, hrnm⟩ := h.recvMeta rn' room' w hg hs
    have hw : w ≠ ws := by
      rintro rfl
      rw [hgm] at hm
      obtain rfl := Option.some.inj hm
      rw [hrnm0] at hrnm
      exact hrn' (Option.some.inj hrnm).symm
    exact ⟨m, by rw [mapGet_erase_ne _ _ _ hw]; exact hm, htrm, hrolem, hrnm⟩
  · intro w m rn'' hg hrnm
    have hw : w ≠ ws := by
      rintro rfl
      rw [mapGet_erase_self _ _ h.metasNodup] at hg
      exact absurd hg (by simp)
    have hg0 : mapGet s.socketMeta w = some m :=
      mapGet_erase_some _ _ _ _ h.metasNodup hg
    obtain ⟨hne'', htr'', room'', hroom'', hc1, hc2⟩ := h.metaRoom w m rn'' hg0 hrnm
    have hrn'' : rn'' ≠ rn := by
      rintro rfl
      rw [hroom] at hroom''
      obtain rfl := Option.some.inj hroom''
      by_cases hr : m.role = some "sender"
      · have hcc := hc1 hr
        rw [hsender] at hcc
        exact absurd hcc (by simp)
      · have hcc := hc2 hr
        have : w ∈ setDelete room.receivers ws :=
          (mem_setDelete _ _ _).2 ⟨hcc, hw⟩
        rw [hdel] at this
        simp at this
    refine ⟨hne'', htr'', room'', ?_, hc1, hc2⟩
    rw [mapGet_erase_ne _ _ _ hrn'']
    exact hroom''

theorem inv_close_recv_set (s : ServerState) (ws : SessionId) (rn : String)
    (m0 : SocketMeta) (room : Room) (h : Inv s)
    (hgm : mapGet s.socketMeta ws = some m0) (hrnm0 : m0.roomName = some rn)
    (hrole : m0.role ≠ some "sender")
    (hroom : mapGet s.rooms rn = some room) :
    Inv { s with rooms := mapSet s.rooms rn
                   { room with receivers := setDelete room.receivers ws },
                 socketMeta := mapErase s.socketMeta ws,
                 openConns := setDelete s.openConns ws } := by
  refine ⟨?_, ?_, ?_, ?_, ?_, ?_⟩ <;> dsimp
  · exact keysNodup_set _ _ _ h.roomsNodup
  · exact keysNodup_erase _ _ h.metasNodup
  · intro rn' room' hg
    by_cases he : rn' = rn
    · subst he
      rw [mapGet_set_self] at hg
      obtain rfl := Option.some.inj hg
      exact setDelete_nodup _ _ (h.recvNodup rn' room hroom)
    · rw [mapGet_set_ne _ _ _ _ he] at hg
      exact h.recvNodup rn' room' hg
  · intro rn' room' w hg hs
    by_cases he : rn' = rn
    · subst he
      rw [mapGet_set_self] at hg
      obtain rfl := Option.some.inj hg
      dsimp at hs
      obtain ⟨m, hm, hrolem, hrnm⟩ := h.senderMeta rn' room w hroom hs
      have hw : w ≠ ws := by
        rintro rfl
        rw [hgm] at hm
        obtain rfl := Option.some.inj hm
        exact hrole hrolem
      exact ⟨m, by rw [mapGet_erase_ne _ _ _ hw]; exact hm, hrolem, hrnm⟩
    · rw [mapGet_set_ne _ _ _ _ he] at hg
      obtain ⟨m, hm, hrolem, hrnm⟩ := h.senderMeta rn' room' w hg hs
      have hw : w ≠ ws := by
        rintro rfl
        rw [hgm] at hm
        obtain rfl := Option.some.inj hm
        rw [hrnm0] at hrnm
        exact he (Option.some.inj hrnm).symm
      exact ⟨m, by rw [mapGet_erase_ne _ _ _ hw]; exact hm, hrolem, hrnm⟩
  · intro rn' room' w hg hs
    by_cases he : rn' = rn
    · subst he
      rw [mapGet_set_self] at hg
      obtain rfl := Option.some.inj hg
      dsimp at hs
      obtain ⟨hs0, hw⟩ := (mem_setDelete _ _ _).1 hs
      obtain ⟨m, hm, htrm, hrolem, hrnm⟩ := h.recvMeta rn' room w hroom hs0
      exact ⟨m, by rw [mapGet_erase_ne _ _ _ hw]; exact hm, htrm, hrolem, hrnm⟩
    · rw [mapGet_set_ne _ _ _ _ he] at hg
      obtain ⟨m, hm, htrm, hrolem, hrnm⟩ := h.recvMeta rn' room' w hg hs
      have hw : w ≠ ws := by
        rintro rfl
        rw [hgm] at hm
        obtain rfl := Option.some.inj hm
        rw [hrnm0] at hrnm
        exact he (Option.some.inj hrnm).symm
      exact ⟨m, by rw [mapGet_erase_ne _ _ _ hw]; exact hm, htrm, hrolem, hrnm⟩
  · intro w m rn'' hg hrnm
    have hw : w ≠ ws := by
      rintro rfl
      rw [mapGet_erase_self _ _ h.metasNodup] at hg
      exact absurd hg (by simp)
    have hg0 : mapGet s.socketMeta w = some m :=
      mapGet_erase_some _ _ _ _ h.metasNodup hg
    obtain ⟨hne'', htr'', room'', hroom'', hc1, hc2⟩ := h.metaRoom w m rn'' hg0 hrnm
    by_cases he : rn'' = rn
    · subst he
      rw [hroom] at hroom''
      obtain rfl := Option.some.inj hroom''
      refine ⟨hne'', htr'',
        { room with receivers := setDelete room.receivers ws },
        mapGet_set_self _ _ _, ?_, ?_⟩
      · intro hr
        exact hc1 hr
      · intro hr
        exact (mem_setDelete _ _ _).2 ⟨hc2 hr, hw⟩
    · refine ⟨hne'', htr'', room'', ?_, hc1, hc2⟩
      rw [mapGet_set_ne _ _ _ _ he]
      exact hroom''

theorem inv_close (s : ServerState) (ws : SessionId) (h : Inv s) :
    Inv (handleClose s ws).1 := by
  by_cases htr : truthy (getMeta s.socketMeta ws).roomName
  case neg =>
    have hnm : (getMeta s.socketMeta ws).roomName = none := by
      cases hm0 : mapGet s.socketMeta ws with
      | none => simp [getMeta, hm0, freshMeta]
      | some m0 =>
          cases hrn0 : m0.roomName with
          | none => simp [getMeta, hm0, hrn0]
          | some rn =>
              obtain ⟨hne, -, -⟩ := h.metaRoom ws m0 rn hm0 hrn0
              exact absurd (by simp [getMeta, hm0, hrn0, truthy, hne]) htr
    have hstate : (handleClose s ws).1 =
        { s with socketMeta := mapErase s.socketMeta ws,
                 openConns := setDelete s.openConns ws } := by
      unfold handleClose
      simp [hnm, truthy]
    rw [hstate]
    exact inv_eraseMeta s ws h hnm _
  case pos =>
    obtain ⟨rn, hrn0, hne⟩ :
        ∃ rn, (getMeta s.socketMeta ws).roomName = some rn ∧ rn ≠ "" := by
      obtain ⟨h1, h2⟩ := htr
      cases hx : (getMeta s.socketMeta ws).roomName with
      | none => exact absurd hx h1
      | some rn => exact ⟨rn, rfl, fun he => h2 (by rw [hx, he])⟩
    obtain ⟨m0, hgm⟩ : ∃ m0, mapGet s.socketMeta ws = some m0 := by
      cases hx : mapGet s.socketMeta ws with
      | none =>
          exfalso
          have : (getMeta s.socketMeta ws).roomName = none := by
            simp [getMeta, hx, freshMeta]
          rw [this] at hrn0
          exact absurd hrn0 (by simp)
      | some m0 => exact ⟨m0, rfl⟩
    have hrnm0 : m0.roomName = some rn := by simpa [getMeta, hgm] using hrn0
    obtain ⟨-, htrole, room, hroom, hs1, hs2⟩ := h.metaRoom ws m0 rn hgm hrnm0
    by_cases hrole : m0.role = some "sender"
    case pos =>
      have hsw : room.sender = some ws := hs1 hrole
      by_cases hempty : room.receivers = []
      · have hstate : (handleClose s ws).1 =
            { s with rooms := mapErase s.rooms rn,
                     socketMeta := mapErase s.socketMeta ws,
                     openConns := setDelete s.openConns ws } := by
          unfold handleClose
          simp [getMeta, hgm, hrnm0, truthy, hne, hroom, hrole, hsw, hempty]
        rw [hstate]
        exact inv_close_sender_erase s ws rn m0 room h hgm hrnm0 hroom hsw hempty
      · have hstate : (handleClose s ws).1 =
            { s with rooms := mapSet s.rooms rn { room with sender := none },
                     socketMeta := mapErase s.socketMeta ws,
                     openConns := setDelete s.openConns ws } := by
          unfold handleClose
          simp [getMeta, hgm, hrnm0, truthy, hne, hroom, hrole, hsw, hempty]
        rw [hstate]
        exact inv_close_sender_set s ws rn m0 room h hgm hrnm0 hrole hroom hsw
    case neg =>
      have hmem : ws ∈ room.receivers := hs2 hrole
      have hcond : ¬ (m0.role = some "sender" ∧ room.sender = some ws) := by
        rintro ⟨h1, -⟩
        exact hrole h1
      by_cases hclean : room.sender = none ∧ setDelete room.receivers ws = []
      · have hstate : (handleClose s ws).1 =
            { s with rooms := mapErase s.rooms rn,
                     socketMeta := mapErase s.socketMeta ws,
                     openConns := setDelete s.openConns ws } := by
          unfold handleClose
          simp [getMeta, hgm, hrnm0, truthy, hne, hroom, hcond, hclean.1, hclean.2]
        rw [hstate]
        exact inv_close_recv_erase s ws rn m0 room h hgm hrnm0 hroom hclean.1 hclean.2
      · have hstate : (handleClose s ws).1 =
            { s with rooms := mapSet s.rooms rn
                       { room with receivers := setDelete room.receivers ws },
                     socketMeta := mapErase s.socketMeta ws,
                     openConns := setDelete s.openConns ws } := by
          unfold handleClose
          simp only [getMeta, hgm, Option.getD_some, hrnm0]
          rw [if_neg (by simp [truthy, hne])]
          simp only [Option.getD_some, hroom]
          rw [if_neg hcond]
          dsimp only
          rw [if_neg hclean]
        rw [hstate]
        exact inv_close_recv_set s ws rn m0 room h hgm hrnm0 hrole hroom

theorem inv_addEmptyRoom (s : ServerState) (rid : String) (c : String) (h : Inv s)
    (hget : mapGet s.rooms rid = none) :
    Inv { s with rooms :=
            mapSet s.rooms rid { sender := none, receivers := [], code := c } } := by
  obtain ⟨hrn, hmn, hrecvN, hsm, hrm, hmr⟩ := h
  refine ⟨?_, ?_, ?_, ?_, ?_, ?_⟩ <;> dsimp
  · exact keysNodup_set _ _ _ hrn
  · exact hmn
  · intro rn room hg
    by_cases he : rn = rid
    · subst he
      rw [mapGet_set_self] at hg
      obtain rfl := Option.some.inj hg
      simp
    · rw [mapGet_set_ne _ _ _ _ he] at hg
      exact hrecvN rn room hg
  · intro rn room w hg hs
    by_cases he : rn = rid
    · subst he
      rw [mapGet_set_self] at hg
      obtain rfl := Option.some.inj hg
      simp at hs
    · rw [mapGet_set_ne _ _ _ _ he] at hg
      exact hsm rn room w hg hs
  · intro rn room w hg hs
    by_cases he : rn = rid
    · subst he
      rw [mapGet_set_self] at hg
      obtain rfl := Option.some.inj hg
      simp at hs
    · rw [mapGet_set_ne _ _ _ _ he] at hg
      exact hrm rn room w hg hs
  · intro w m rn hg hrnm
    obtain ⟨hne, htr, room, hroom, hc1, hc2⟩ := hmr w m rn hg hrnm
    have he : rn ≠ rid := by
      rintro rfl
      rw [hget] at hroom
      exact absurd hroom (by simp)
    refine ⟨hne, htr, room, ?_, hc1, hc2⟩
    rw [mapGet_set_ne _ _ _ _ he]
    exact hroom

theorem inv_join_sender_demote (s : ServerState) (ws oldS : SessionId)
    (rid : String) (room : Room) (h : Inv s)
    (hsj : (getMeta s.socketMeta ws).roomName = none) (hne : rid ≠ "")
    (hget : mapGet s.rooms rid = some room) (hsolds : room.sender = some oldS)
    (holdne : oldS ≠ ws) :
    Inv { s with
      rooms := mapSet s.rooms rid { sender := some ws, receivers := setAdd room.receivers oldS, code := room.code },
      socketMeta :=
        mapSet
          (mapSet s.socketMeta ws { getMeta s.socketMeta ws with roomName := some rid, role := some "sender" })
          oldS
          { getMeta (mapSet s.socketMeta ws { getMeta s.socketMeta ws with roomName := some rid, role := some "sender" }) oldS with role := some "receiver" } } := by
  set meta1 : SocketMeta :=
    { getMeta s.socketMeta ws with roomName := some rid, role := some "sender" }
    with hmeta1
  obtain ⟨moldS, hmoldS, hroleoldS, hrnoldS⟩ :=
    h.senderMeta rid room oldS hget hsolds
  have hgetold : getMeta (mapSet s.socketMeta ws meta1) oldS = moldS := by
    rw [getMeta_set_ne _ _ _ _ holdne, getMeta, hmoldS]
    rfl
  rw [hgetold]
  set moldS' : SocketMeta := { moldS with role := some "receiver" } with hmoldS'
  have hwsrecv : ws ∉ room.receivers := by
    intro hmem
    obtain ⟨m, hm, -, -, hrnm⟩ := h.recvMeta rid room ws hget hmem
    rw [getMeta, hm] at hsj
    simp at hsj
    rw [hsj] at hrnm
    exact absurd hrnm (by simp)
  have holdrecv : oldS ∉ room.receivers := by
    intro hmem
    obtain ⟨m, hm, -, hrolem, -⟩ := h.recvMeta rid room oldS hget hmem
    rw [hmoldS] at hm
    obtain rfl := Option.some.inj hm
    exact hrolem hroleoldS
  have hmetas' : ∀ w : SessionId, w ≠ ws → w ≠ oldS →
      mapGet (mapSet (mapSet s.socketMeta ws meta1) oldS moldS') w =
        mapGet s.socketMeta w := by
    intro w hw1 hw2
    rw [mapGet_set_ne _ _ _ _ hw2, mapGet_set_ne _ _ _ _ hw1]
  have hmetaws : mapGet (mapSet (mapSet s.socketMeta ws meta1) oldS moldS') ws =
      some meta1 := by
    rw [mapGet_set_ne _ _ _ _ (Ne.symm holdne), mapGet_set_self]
  have hmetaold : mapGet (mapSet (mapSet s.socketMeta ws meta1) oldS moldS') oldS =
      some moldS' := mapGet_set_self _ _ _
  refine ⟨?_, ?_, ?_, ?_, ?_, ?_⟩ <;> dsimp
  · exact keysNodup_set _ _ _ h.roomsNodup
  · exact keysNodup_set _ _ _ (keysNodup_set _ _ _ h.metasNodup)
  · intro rn' room' hg
    by_cases he : rn' = rid
    · subst he
      rw [mapGet_set_self] at hg
      obtain rfl := Option.some.inj hg
      exact setAdd_nodup _ _ (h.recvNodup rn' room hget)
    · rw [mapGet_set_ne _ _ _ _ he] at hg
      exact h.recvNodup rn' room' hg
  · intro rn' room' w hg hs
    by_cases he : rn' = rid
    · subst he
      rw [mapGet_set_self] at hg
      obtain rfl := Option.some.inj hg
      dsimp at hs
      obtain rfl := Option.some.inj hs
      exact ⟨meta1, hmetaws, rfl, rfl⟩
    · rw [mapGet_set_ne _ _ _ _ he] at hg
      obtain ⟨m, hm, hrolem, hrnm⟩ := h.senderMeta rn' room' w hg hs
      have hw1 : w ≠ ws := by
        rintro rfl
        rw [getMeta, hm] at hsj
        simp at hsj
        rw [hsj] at hrnm
        exact absurd hrnm (by simp)
      have hw2 : w ≠ oldS := by
        rintro rfl
        rw [hmoldS] at hm
        obtain rfl := Option.some.inj hm
        rw [hrnoldS] at hrnm
        exact he (Option.some.inj hrnm).symm
      exact ⟨m, by rw [hmetas' w hw1 hw2]; exact hm, hrolem, hrnm⟩
  · intro rn' room' w hg hs
    by_cases he : rn' = rid
    · subst he
      rw [mapGet_set_self] at hg
      obtain rfl := Option.some.inj hg
      dsimp at hs
      rcases (mem_setAdd _ _ _).1 hs with hmem | rfl
      · obtain ⟨m, hm, htrm, hrolem, hrnm⟩ := h.recvMeta rn' room w hget hmem
        have hw1 : w ≠ ws := fun he' => hwsrecv (he' ▸ hmem)
        have hw2 : w ≠ oldS := fun he' => holdrecv (he' ▸ hmem)
        exact ⟨m, by rw [hmetas' w hw1 hw2]; exact hm, htrm, hrolem, hrnm⟩
      · refine ⟨moldS', hmetaold, ?_, ?_, ?_⟩
        · simp [hmoldS', truthy]
        · simp [hmoldS']
        · rw [hmoldS']
          dsimp
          exact hrnoldS ▸ rfl
    · rw [mapGet_set_ne _ _ _ _ he] at hg
      obtain ⟨m, hm, htrm, hrolem, hrnm⟩ := h.recvMeta rn' room' w hg hs
      have hw1 : w ≠ ws := by
        rintro rfl
        rw [getMeta, hm] at hsj
        simp at hsj
        rw [hsj] at hrnm
        exact absurd hrnm (by simp)
      have hw2 : w ≠ oldS := by
        rintro rfl
        rw [hmoldS] at hm
        obtain rfl := Option.some.inj hm
        rw [hrnoldS] at hrnm
        exact he (Option.some.inj hrnm).symm
      exact ⟨m, by rw [hmetas' w hw1 hw2]; exact hm, htrm, hrolem, hrnm⟩
  · intro w m rn'' hg hrnm
    by_cases hw2 : w = oldS
    · subst hw2
      rw [hmetaold] at hg
      obtain rfl := Option.some.inj hg
      have : rn'' = rid := by
        have : moldS'.roomName = some rid := by
          rw [hmoldS']
          dsimp
          exact hrnoldS
        rw [this] at hrnm
        exact (Option.some.inj hrnm).symm
      subst this
      refine ⟨hne, by simp [hmoldS', truthy], _, mapGet_set_self _ _ _, ?_, ?_⟩
      · intro hr
        rw [hmoldS'] at hr
        simp at hr
      · intro hr
        dsimp
        exact (mem_setAdd _ _ _).2 (Or.inr rfl)
    · by_cases hw1 : w = ws
      · subst hw1
        rw [hmetaws] at hg
        obtain rfl := Option.some.inj hg
        have : rn'' = rid := by
          rw [hmeta1] at hrnm
          dsimp at hrnm
          exact (Option.some.inj hrnm).symm
        subst this
        refine ⟨hne, by simp [hmeta1, truthy], _, mapGet_set_self _ _ _, ?_, ?_⟩
        · intro hr
          rfl
        · intro hr
          exfalso
          rw [hmeta1] at hr
          exact hr rfl
      · rw [hmetas' w hw1 hw2] at hg
        obtain ⟨hne'', htr'', room'', hroom'', hc1, hc2⟩ :=
          h.metaRoom w m rn'' hg hrnm
        by_cases he : rn'' = rid
        · subst he
          rw [hget] at hroom''
          obtain rfl := Option.some.inj hroom''
          refine ⟨hne'', htr'', _, mapGet_set_self _ _ _, ?_, ?_⟩
          · intro hr
            exfalso
            have hcc := hc1 hr
            rw [hsolds] at hcc
            exact hw2 (Option.some.inj hcc).symm
          · intro hr
            dsimp
            exact (mem_setAdd _ _ _).2 (Or.inl (hc2 hr))
        · refine ⟨hne'', htr'', room'', ?_, hc1, hc2⟩
          rw [mapGet_set_ne _ _ _ _ he]
          exact hroom''

theorem inv_join_sender_nodemote (s : ServerState) (ws : SessionId)
    (rid : String) (room : Room) (h : Inv s)
    (hsj : (getMeta s.socketMeta ws).roomName = none) (hne : rid ≠ "")
    (hget : mapGet s.rooms rid = some room) (hsender : room.sender = none) :
    Inv { s with
      rooms := mapSet s.rooms rid { sender := some ws, receivers := room.receivers, code := room.code },
      socketMeta := mapSet s.socketMeta ws { getMeta s.socketMeta ws with roomName := some rid, role := some "sender" } } := by
  set meta1 : SocketMeta :=
    { getMeta s.socketMeta ws with roomName := some rid, role := some "sender" }
    with hmeta1
  have hwsrecv : ws ∉ room.receivers := by
    intro hmem
    obtain ⟨m, hm, -, -, hrnm⟩ := h.recvMeta rid room ws hget hmem
    rw [getMeta, hm] at hsj
    simp at hsj
    rw [hsj] at hrnm
    exact absurd hrnm (by simp)
  refine ⟨?_, ?_, ?_, ?_, ?_, ?_⟩ <;> dsimp
  · exact keysNodup_set _ _ _ h.roomsNodup
  · exact keysNodup_set _ _ _ h.metasNodup
  · intro rn' room' hg
    by_cases he : rn' = rid
    · subst he
      rw [mapGet_set_self] at hg
      obtain rfl := Option.some.inj hg
      exact h.recvNodup rn' room hget
    · rw [mapGet_set_ne _ _ _ _ he] at hg
      exact h.recvNodup rn' room' hg
  · intro rn' room' w hg hs
    by_cases he : rn' = rid
    · subst he
      rw [mapGet_set_self] at hg
      obtain rfl := Option.some.inj hg
      dsimp at hs
      obtain rfl := Option.some.inj hs
      exact ⟨meta1, mapGet_set_self _ _ _, rfl, rfl⟩
    · rw [mapGet_set_ne _ _ _ _ he] at hg
      obtain ⟨m, hm, hrolem, hrnm⟩ := h.senderMeta rn' room' w hg hs
      have hw1 : w ≠ ws := by
        rintro rfl
        rw [getMeta, hm] at hsj
        simp at hsj
        rw [hsj] at hrnm
        exact absurd hrnm (by simp)
      exact ⟨m, by rw [mapGet_set_ne _ _ _ _ hw1]; exact hm, hrolem, hrnm⟩
  · intro rn' room' w hg hs
    by_cases he : rn' = rid
    · subst he
      rw [mapGet_set_self] at hg
      obtain rfl := Option.some.inj hg
      dsimp at hs
      obtain ⟨m, hm, htrm, hrolem, hrnm⟩ := h.recvMeta rn' room w hget hs
      have hw1 : w ≠ ws := fun he' => hwsrecv (he' ▸ hs)
      exact ⟨m, by rw [mapGet_set_ne _ _ _ _ hw1]; exact hm, htrm, hrolem, hrnm⟩
    · rw [mapGet_set_ne _ _ _ _ he] at hg
      obtain ⟨m, hm, htrm, hrolem, hrnm⟩ := h.recvMeta rn' room' w hg hs
      have hw1 : w ≠ ws := by
        rintro rfl
        rw [getMeta, hm] at hsj
        simp at hsj
        rw [hsj] at hrnm
        exact absurd hrnm (by simp)
      exact ⟨m, by rw [mapGet_set_ne _ _ _ _ hw1]; exact hm, htrm, hrolem, hrnm⟩
  · intro w m rn'' hg hrnm
    by_cases hw1 : w = ws
    · subst hw1
      rw [mapGet_set_self] at hg
      obtain rfl := Option.some.inj hg
      have : rn'' = rid := by
        rw [hmeta1] at hrnm
        dsimp at hrnm
        exact (Option.some.inj hrnm).symm
      subst this
      refine ⟨hne, by simp [hmeta1, truthy], _, mapGet_set_self _ _ _, ?_, ?_⟩
      · intro hr
        rfl
      · intro hr
        exfalso
        rw [hmeta1] at hr
        exact hr rfl
    · rw [mapGet_set_ne _ _ _ _ hw1] at hg
      obtain ⟨hne'', htr'', room'', hroom'', hc1, hc2⟩ :=
        h.metaRoom w m rn'' hg hrnm
      by_cases he : rn'' = rid
      · subst he
        rw [hget] at hroom''
        obtain rfl := Option.some.inj hroom''
        refine ⟨hne'', htr'', _, mapGet_set_self _ _ _, ?_, ?_⟩
        · intro hr
          exfalso
          have hcc := hc1 hr
          rw [hsender] at hcc
          exact absurd hcc (by simp)
        · intro hr
          dsimp
          exact hc2 hr
      · refine ⟨hne'', htr'', room'', ?_, hc1, hc2⟩
        rw [mapGet_set_ne _ _ _ _ he]
        exact hroom''

theorem inv_join_recv (s : ServerState) (ws : SessionId)
    (rid rl : String) (room : Room) (h : Inv s)
    (hsj : (getMeta s.socketMeta ws).roomName = none) (hne : rid ≠ "")
    (hrlne : rl ≠ "") (hrls : rl ≠ "sender")
    (hget : mapGet s.rooms rid = some room) :
    Inv { s with
      rooms := mapSet s.rooms rid { room with receivers := setAdd room.receivers ws },
      socketMeta := mapSet s.socketMeta ws { getMeta s.socketMeta ws with roomName := some rid, role := some rl } } := by
  set meta1 : SocketMeta :=
    { getMeta s.socketMeta ws with roomName := some rid, role := some rl }
    with hmeta1
  have hwsrecv : ws ∉ room.receivers := by
    intro hmem
    obtain ⟨m, hm, -, -, hrnm⟩ := h.recvMeta rid room ws hget hmem
    rw [getMeta, hm] at hsj
    simp at hsj
    rw [hsj] at hrnm
    exact absurd hrnm (by simp)
  refine ⟨?_, ?_, ?_, ?_, ?_, ?_⟩ <;> dsimp
  · exact keysNodup_set _ _ _ h.roomsNodup
  · exact keysNodup_set _ _ _ h.metasNodup
  · intro rn' room' hg
    by_cases he : rn' = rid
    · subst he
      rw [mapGet_set_self] at hg
      obtain rfl := Option.some.inj hg
      exact setAdd_nodup _ _ (h.recvNodup rn' room hget)
    · rw [mapGet_set_ne _ _ _ _ he] at hg
      exact h.recvNodup rn' room' hg
  · intro rn' room' w hg hs
    by_cases he : rn' = rid
    · subst he
      rw [mapGet_set_self] at hg
      obtain rfl := Option.some.inj hg
      dsimp at hs
      obtain ⟨m, hm, hrolem, hrnm⟩ := h.senderMeta rn' room w hget hs
      have hw1 : w ≠ ws := by
        rintro rfl
        rw [getMeta, hm] at hsj
        simp at hsj
        rw [hsj] at hrnm
        exact absurd hrnm (by simp)
      exact ⟨m, by rw [mapGet_set_ne _ _ _ _ hw1]; exact hm, hrolem, hrnm⟩
    · rw [mapGet_set_ne _ _ _ _ he] at hg
      obtain ⟨m, hm, hrolem, hrnm⟩ := h.senderMeta rn' room' w hg hs
      have hw1 : w ≠ ws := by
        rintro rfl
        rw [getMeta, hm] at hsj
        simp at hsj
        rw [hsj] at hrnm
        exact absurd hrnm (by simp)
      exact ⟨m, by rw [mapGet_set_ne _ _ _ _ hw1]; exact hm, hrolem, hrnm⟩
  · intro rn' room' w hg hs
    by_cases he : rn' = rid
    · subst he
      rw [mapGet_set_self] at hg
      obtain rfl := Option.some.inj hg
      dsimp at hs
      rcases (mem_setAdd _ _ _).1 hs with hmem | rfl
      · obtain ⟨m, hm, htrm, hrolem, hrnm⟩ := h.recvMeta rn' room w hget hmem
        have hw1 : w ≠ ws := fun he' => hwsrecv (he' ▸ hmem)
        exact ⟨m, by rw [mapGet_set_ne _ _ _ _ hw1]; exact hm, htrm, hrolem, hrnm⟩
      · refine ⟨meta1, mapGet_set_self _ _ _, ?_, ?_, rfl⟩
        · simp [hmeta1, truthy, hrlne]
        · simp [hmeta1, hrls]
    · rw [mapGet_set_ne _ _ _ _ he] at hg
      obtain ⟨m, hm, htrm, hrolem, hrnm⟩ := h.recvMeta rn' room' w hg hs
      have hw1 : w ≠ ws := by
        rintro rfl
        rw [getMeta, hm] at hsj
        simp at hsj
        rw [hsj] at hrnm
        exact absurd hrnm (by simp)
      exact ⟨m, by rw [mapGet_set_ne _ _ _ _ hw1]; exact hm, htrm, hrolem, hrnm⟩
  · intro w m rn'' hg hrnm
    by_cases hw1 : w = ws
    · subst hw1
      rw [mapGet_set_self] at hg
      obtain rfl := Option.some.inj hg
      have : rn'' = rid := by
        rw [hmeta1] at hrnm
        dsimp at hrnm
        exact (Option.some.inj hrnm).symm
      subst this
      refine ⟨hne, by simp [hmeta1, truthy, hrlne], _, mapGet_set_self _ _ _, ?_, ?_⟩
      · intro hr
        exfalso
        rw [hmeta1] at hr
        dsimp at hr
        exact hrls (Option.some.inj hr)
      · intro hr
        dsimp
        exact (mem_setAdd _ _ _).2 (Or.inr rfl)
    · rw [mapGet_set_ne _ _ _ _ hw1] at hg
      obtain ⟨hne'', htr'', room'', hroom'', hc1, hc2⟩ :=
        h.metaRoom w m rn'' hg hrnm
      by_cases he : rn'' = rid
      · subst he
        rw [hget] at hroom''
        obtain rfl := Option.some.inj hroom''
        refine ⟨hne'', htr'', _, mapGet_set_self _ _ _, ?_, ?_⟩
        · intro hr
          dsimp
          exact hc1 hr
        · intro hr
          dsimp
          exact (mem_setAdd _ _ _).2 (Or.inl (hc2 hr))
      · refine ⟨hne'', htr'', room'', ?_, hc1, hc2⟩
        rw [mapGet_set_ne _ _ _ _ he]
        exact hroom''

theorem inv_join (s : ServerState) (ws : SessionId) (msg : SignalMessage)
    (k : Nat) (h : Inv s)
    (hsj : (getMeta s.socketMeta ws).roomName = none) :
    Inv (handleJoin s ws msg k).1 := by
  by_cases hguard : ¬ truthy msg.room ∨ ¬ truthy msg.role
  · have hstate : (handleJoin s ws msg k).1 = s := by
      unfold handleJoin
      rw [if_pos hguard]
    rw [hstate]
    exact h
  · push_neg at hguard
    obtain ⟨htroom, htrole⟩ := hguard
    obtain ⟨rid, hrid, hne⟩ : ∃ rid, msg.room = some rid ∧ rid ≠ "" := by
      obtain ⟨h1, h2⟩ := htroom
      cases hx : msg.room with
      | none => exact absurd hx h1
      | some rid => exact ⟨rid, rfl, fun he => h2 (by rw [hx, he])⟩
    obtain ⟨rl, hrl, hrlne⟩ : ∃ rl, msg.role = some rl ∧ rl ≠ "" := by
      obtain ⟨h1, h2⟩ := htrole
      cases hx : msg.role with
      | none => exact absurd hx h1
      | some rl => exact ⟨rl, rfl, fun he => h2 (by rw [hx, he])⟩
    have htrid : truthy (some rid) := by
      refine ⟨by simp, ?_⟩
      simpa using hne
    have htrl2 : truthy (some rl) := by
      refine ⟨by simp, ?_⟩
      simpa using hrlne
    have htsend : truthy (some "sender") := by decide
    have htrecv : truthy (some "receiver") := by decide
    cases hget : mapGet s.rooms rid with
    | some room =>
        by_cases hrole_s : msg.role = some "sender"
        case pos =>
          cases hsolds : room.sender with
          | some oldS =>
              by_cases holdne : oldS = ws
              · subst holdne
                obtain ⟨m, hm, -, hrnm⟩ := h.senderMeta rid room oldS hget hsolds
                rw [getMeta, hm] at hsj
                simp at hsj
                rw [hsj] at hrnm
                exact absurd hrnm (by simp)
              · have hstate : (handleJoin s ws msg k).1 =
                    { s with
                      rooms := mapSet s.rooms rid { sender := some ws, receivers := setAdd room.receivers oldS, code := room.code },
                      socketMeta :=
                        mapSet
                          (mapSet s.socketMeta ws { getMeta s.socketMeta ws with roomName := some rid, role := some "sender" })
                          oldS
                          { getMeta (mapSet s.socketMeta ws { getMeta s.socketMeta ws with roomName := some rid, role := some "sender" }) oldS with role := some "receiver" } } := by
                  unfold handleJoin
                  simp [hrid, hrole_s, htrid, htsend, getRoom, hget, hsolds, holdne]
                rw [hstate]
                exact inv_join_sender_demote s ws oldS rid room h hsj hne hget
                  hsolds holdne
          | none =>
              have hstate : (handleJoin s ws msg k).1 =
                  { s with
                    rooms := mapSet s.rooms rid { sender := some ws, receivers := room.receivers, code := room.code },
                    socketMeta := mapSet s.socketMeta ws { getMeta s.socketMeta ws with roomName := some rid, role := some "sender" } } := by
                unfold handleJoin
                simp [hrid, hrole_s, htrid, htsend, getRoom, hget, hsolds]
              rw [hstate]
              exact inv_join_sender_nodemote s ws rid room h hsj hne hget hsolds
        case neg =>
          have hrls : rl ≠ "sender" := by
            rintro rfl
            exact hrole_s hrl
          by_cases hdeny : msg.role = some "receiver" ∧ msg.code ≠ some room.code
          · have hstate : (handleJoin s ws msg k).1 = s := by
              unfold handleJoin
              simp [hrid, htrid, htrecv, getRoom, hget, hdeny.1, hdeny.2]
            rw [hstate]
            exact h
          · have hstate : (handleJoin s ws msg k).1 =
                { s with
                  rooms := mapSet s.rooms rid { room with receivers := setAdd room.receivers ws },
                  socketMeta := mapSet s.socketMeta ws { getMeta s.socketMeta ws with roomName := some rid, role := some rl } } := by
              unfold handleJoin
              have hdeny2 : ¬(rl = "receiver" ∧ msg.code ≠ some room.code) := by
                rintro ⟨ha, hb⟩
                exact hdeny ⟨by rw [hrl, ha], hb⟩
              simp [hrid, hrl, htrid, htrl2, getRoom, hget, hdeny2, hrls]
            rw [hstate]
            exact inv_join_recv s ws rid rl room h hsj hne hrlne hrls hget
    | none =>
        have hfresh : mapGet s.rooms rid = none := hget
        set fresh : Room :=
          { sender := none, receivers := [], code := generateRoomCode k }
          with hfreshdef
        set s1 : ServerState := { s with rooms := mapSet s.rooms rid fresh }
          with hs1
        have hinv1 : Inv s1 := inv_addEmptyRoom s rid (generateRoomCode k) h hfresh
        have hget1 : mapGet s1.rooms rid = some fresh := by
          rw [hs1]
          exact mapGet_set_self _ _ _
        have hsj1 : (getMeta s1.socketMeta ws).roomName = none := hsj
        by_cases hrole_s : msg.role = some "sender"
        case pos =>
          have hstate : (handleJoin s ws msg k).1 =
              { s1 with
                rooms := mapSet s1.rooms rid { sender := some ws, receivers := fresh.receivers, code := fresh.code },
                socketMeta := mapSet s1.socketMeta ws { getMeta s1.socketMeta ws with roomName := some rid, role := some "sender" } } := by
            unfold handleJoin
            simp [hrid, hrole_s, htrid, htsend, getRoom, hget, hs1, hfreshdef]
          rw [hstate]
          exact inv_join_sender_nodemote s1 ws rid fresh hinv1 hsj1 hne hget1 rfl
        case neg =>
          have hrls : rl ≠ "sender" := by
            rintro rfl
            exact hrole_s hrl
          by_cases hdeny : msg.role = some "receiver" ∧
              msg.code ≠ some (generateRoomCode k)
          · have hstate : (handleJoin s ws msg k).1 = s1 := by
              unfold handleJoin
              simp [hrid, htrid, htrecv, getRoom, hget, hdeny.1, hdeny.2, hs1,
                hfreshdef]
            rw [hstate]
            exact hinv1
          · have hstate : (handleJoin s ws msg k).1 =
                { s1 with
                  rooms := mapSet s1.rooms rid { fresh with receivers := setAdd fresh.receivers ws },
                  socketMeta := mapSet s1.socketMeta ws { getMeta s1.socketMeta ws with roomName := some rid, role := some rl } } := by
              unfold handleJoin
              have hdeny2 : ¬(rl = "receiver" ∧ msg.code ≠ some (generateRoomCode k)) := by
                rintro ⟨ha, hb⟩
                exact hdeny ⟨by rw [hrl, ha], hb⟩
              simp [hrid, hrl, htrid, htrl2, getRoom, hget, hdeny2, hrls, hs1,
                hfreshdef]
            rw [hstate]
            exact inv_join_recv s1 ws rid rl fresh hinv1 hsj1 hne hrlne hrls hget1

theorem mapSet_mapSet {α β : Type} [DecidableEq α] (m : List (α × β)) (k : α)
    (v v' : β) : mapSet (mapSet m k v) k v' = mapSet m k v' := by
  induction m with
  | nil => simp [mapSet]
  | cons p rest ih =>
      obtain ⟨k0, v0⟩ := p
      by_cases h : k0 = k
      · simp [mapSet, h]
      · simp [mapSet, h, ih]

theorem mapSet_self_of_get {α β : Type} [DecidableEq α] (m : List (α × β))
    (k : α) (v : β) (h : mapGet m k = some v) : mapSet m k v = m := by
  induction m with
  | nil => simp [mapGet] at h
  | cons p rest ih =>
      obtain ⟨k0, v0⟩ := p
      by_cases hk : k0 = k
      · subst hk
        have : v0 = v := by simpa [mapGet] using h
        simp [mapSet, this]
      · simp only [mapGet, if_neg hk] at h
        simp [mapSet, hk, ih h]

theorem setAdd_ne_nil {α : Type} [DecidableEq α] (l : List α) (x : α) :
    setAdd l x ≠ [] := by
  unfold setAdd
  split
  · next hmem =>
      intro he
      rw [he] at hmem
      simp at hmem
  · simp

/-- Effect of one join message on the room registry: either unchanged, or a
single binding written, whose code is preserved (existing room) or freshly
generated (new room); an empty binding can only be written by a denied
receiver join of an unknown room. -/
theorem handleJoin_rooms_spec (s : ServerState) (ws : SessionId)
    (msg : SignalMessage) (k : Nat) :
    (handleJoin s ws msg k).1.rooms = s.rooms ∨
    (∃ rid, msg.room = some rid ∧
      ((∃ room room', mapGet s.rooms rid = some room ∧
          (handleJoin s ws msg k).1.rooms = mapSet s.rooms rid room' ∧
          room'.code = room.code ∧
          (room'.sender = none ∧ room'.receivers = [] →
            room.sender = none ∧ room.receivers = [])) ∨
       (mapGet s.rooms rid = none ∧
        ∃ room', (handleJoin s ws msg k).1.rooms = mapSet s.rooms rid room' ∧
          room'.code = generateRoomCode k ∧
          (room'.sender = none ∧ room'.receivers = [] →
            msg.role = some "receiver" ∧ msg.code ≠ some (generateRoomCode k))))) := by
  by_cases hguard : ¬ truthy msg.room ∨ ¬ truthy msg.role
  · left
    unfold handleJoin
    rw [if_pos hguard]
  · push_neg at hguard
    obtain ⟨htroom, htrole⟩ := hguard
    obtain ⟨rid, hrid, hne⟩ : ∃ rid, msg.room = some rid ∧ rid ≠ "" := by
      obtain ⟨h1, h2⟩ := htroom
      cases hx : msg.room with
      | none => exact absurd hx h1
      | some rid => exact ⟨rid, rfl, fun he => h2 (by rw [hx, he])⟩
    obtain ⟨rl, hrl, hrlne⟩ : ∃ rl, msg.role = some rl ∧ rl ≠ "" := by
      obtain ⟨h1, h2⟩ := htrole
      cases hx : msg.role with
      | none => exact absurd hx h1
      | some rl => exact ⟨rl, rfl, fun he => h2 (by rw [hx, he])⟩
    have htrid : truthy (some rid) := by
      refine ⟨by simp, ?_⟩
      simpa using hne
    have htrl2 : truthy (some rl) := by
      refine ⟨by simp, ?_⟩
      simpa using hrlne
    have htsend : truthy (some "sender") := by decide
    have htrecv : truthy (some "receiver") := by decide
    right
    refine ⟨rid, hrid, ?_⟩
    cases hget : mapGet s.rooms rid with
    | some room =>
        left
        by_cases hrole_s : msg.role = some "sender"
        case pos =>
          cases hsolds : room.sender with
          | some oldS =>
              by_cases holdne : oldS = ws
              · refine ⟨room,
                  { sender := some ws, receivers := room.receivers, code := room.code },
                  rfl, ?_, rfl, by simp⟩
                unfold handleJoin
                simp [hrid, hrole_s, htrid, htsend, getRoom, hget, hsolds, holdne]
              · refine ⟨room,
                  { sender := some ws, receivers := setAdd room.receivers oldS, code := room.code },
                  rfl, ?_, rfl, by simp⟩
                unfold handleJoin
                simp [hrid, hrole_s, htrid, htsend, getRoom, hget, hsolds, holdne]
          | none =>
              refine ⟨room,
                { sender := some ws, receivers := room.receivers, code := room.code },
                rfl, ?_, rfl, by simp⟩
              unfold handleJoin
              simp [hrid, hrole_s, htrid, htsend, getRoom, hget, hsolds]
        case neg =>
          have hrls : rl ≠ "sender" := by
            rintro rfl
            exact hrole_s hrl
          by_cases hdeny : msg.role = some "receiver" ∧ msg.code ≠ some room.code
          · refine ⟨room, room, rfl, ?_, rfl, fun he => he⟩
            have : (handleJoin s ws msg k).1.rooms = s.rooms := by
              unfold handleJoin
              simp [hrid, htrid, htrecv, getRoom, hget, hdeny.1, hdeny.2]
            rw [this]
            exact (mapSet_self_of_get s.rooms rid room hget).symm
          · refine ⟨room, { room with receivers := setAdd room.receivers ws },
              rfl, ?_, rfl, ?_⟩
            · unfold handleJoin
              have hdeny2 : ¬(rl = "receiver" ∧ msg.code ≠ some room.code) := by
                rintro ⟨ha, hb⟩
                exact hdeny ⟨by rw [hrl, ha], hb⟩
              simp [hrid, hrl, htrid, htrl2, getRoom, hget, hdeny2, hrls]
            · rintro ⟨-, hr⟩
              exact absurd hr (setAdd_ne_nil room.receivers ws)
    | none =>
        right
        refine ⟨rfl, ?_⟩
        by_cases hrole_s : msg.role = some "sender"
        case pos =>
          refine ⟨{ sender := some ws, receivers := [], code := generateRoomCode k },
            ?_, rfl, by simp⟩
          unfold handleJoin
          rw [← mapSet_mapSet s.rooms rid
            { sender := none, receivers := [], code := generateRoomCode k }]
          simp [hrid, hrole_s, htrid, htsend, getRoom, hget]
        case neg =>
          have hrls : rl ≠ "sender" := by
            rintro rfl
            exact hrole_s hrl
          by_cases hdeny : msg.role = some "receiver" ∧
              msg.code ≠ some (generateRoomCode k)
          · refine ⟨{ sender := none, receivers := [], code := generateRoomCode k },
              ?_, rfl, fun _ => hdeny⟩
            unfold handleJoin
            simp [hrid, htrid, htrecv, getRoom, hget, hdeny.1, hdeny.2]
          · refine ⟨{ sender := none, receivers := setAdd [] ws, code := generateRoomCode k },
              ?_, rfl, ?_⟩
            · unfold handleJoin
              rw [← mapSet_mapSet s.rooms rid
                { sender := none, receivers := [], code := generateRoomCode k }]
              have hdeny2 : ¬(rl = "receiver" ∧ msg.code ≠ some (generateRoomCode k)) := by
                rintro ⟨ha, hb⟩
                exact hdeny ⟨by rw [hrl, ha], hb⟩
              simp [hrid, hrl, htrid, htrl2, getRoom, hget, hdeny2, hrls]
            · rintro ⟨-, hr⟩
              exact absurd hr (setAdd_ne_nil [] ws)

theorem handleRelay_fst (st : ServerState) (ws : SessionId) (msg : SignalMessage) :
    (handleRelay st ws msg).1 = st := by
  unfold handleRelay
  dsimp only
  split
  · rfl
  · split
    · rfl
    · split
      · split
        · split <;> rfl
        · rfl
      · split
        · split <;> rfl
        · rfl

/-- Effect of one close event on the room registry: unchanged, one binding
erased, or one binding rewritten without touching its code and without
leaving it empty. -/
theorem handleClose_rooms_spec (s : ServerState) (ws : SessionId) :
    (handleClose s ws).1.rooms = s.rooms ∨
    (∃ rid, (handleClose s ws).1.rooms = mapErase s.rooms rid) ∨
    (∃ rid room room', mapGet s.rooms rid = some room ∧
       (handleClose s ws).1.rooms = mapSet s.rooms rid room' ∧
       room'.code = room.code ∧
       ¬(room'.sender = none ∧ room'.receivers = [])) := by
  by_cases htr : truthy (getMeta s.socketMeta ws).roomName
  case neg =>
    left
    unfold handleClose
    simp [htr]
  case pos =>
    obtain ⟨rn, hrn0, hne⟩ :
        ∃ rn, (getMeta s.socketMeta ws).roomName = some rn ∧ rn ≠ "" := by
      obtain ⟨h1, h2⟩ := htr
      cases hx : (getMeta s.socketMeta ws).roomName with
      | none => exact absurd hx h1
      | some rn => exact ⟨rn, rfl, fun he => h2 (by rw [hx, he])⟩
    have htrn : truthy (some rn) := by
      refine ⟨by simp, ?_⟩
      simpa using hne
    cases hroom : mapGet s.rooms rn with
    | none =>
        left
        unfold handleClose
        simp [htr, hrn0, htrn, hroom]
    | some room =>
        by_cases hcond : (getMeta s.socketMeta ws).role = some "sender" ∧
            room.sender = some ws
        case pos =>
          by_cases hclean : room.receivers = []
          · right; left
            refine ⟨rn, ?_⟩
            unfold handleClose
            simp [htr, hrn0, htrn, hroom, hcond.1, hcond.2, hclean]
          · right; right
            refine ⟨rn, room, { room with sender := none }, hroom, ?_, rfl,
              by simp [hclean]⟩
            unfold handleClose
            simp [htr, hrn0, htrn, hroom, hcond.1, hcond.2, hclean]
        case neg =>
          by_cases hclean : room.sender = none ∧ setDelete room.receivers ws = []
          · right; left
            refine ⟨rn, ?_⟩
            unfold handleClose
            simp [htr, hrn0, htrn, hroom, hcond, hclean.1, hclean.2]
          · right; right
            refine ⟨rn, room, { room with receivers := setDelete room.receivers ws },
              hroom, ?_, rfl, by simpa using hclean⟩
            unfold handleClose
            simp [htr, hrn0, htrn, hroom, hcond, hclean]

/-- Effect of one hub event on the room registry: unchanged, one binding
erased, one binding rewritten with its code preserved and emptiness not
introduced, or one fresh binding written by a join for an unknown room name,
which is empty only when that join was a denied receiver join. -/
theorem applyOp_rooms_spec (s : ServerState) (op : Op) :
    (applyOp s op).1.rooms = s.rooms ∨
    (∃ rid, (applyOp s op).1.rooms = mapErase s.rooms rid) ∨
    (∃ rid room room', mapGet s.rooms rid = some room ∧
       (applyOp s op).1.rooms = mapSet s.rooms rid room' ∧
       room'.code = room.code ∧
       (room'.sender = none ∧ room'.receivers = [] →
         room.sender = none ∧ room.receivers = [])) ∨
    (∃ ws msg k rid, op = Op.message ws msg k ∧ msg.type = "join" ∧
       msg.room = some rid ∧ mapGet s.rooms rid = none ∧
       ∃ room', (applyOp s op).1.rooms = mapSet s.rooms rid room' ∧
         room'.code = generateRoomCode k ∧
         (room'.sender = none ∧ room'.receivers = [] →
           msg.role = some "receiver" ∧ msg.code ≠ some (generateRoomCode k))) := by
  cases op with
  | connect ws => left; rfl
  | drop ws => left; rfl
  | close ws =>
      have happ : applyOp s (Op.close ws) = handleClose s ws := rfl
      rw [happ]
      rcases handleClose_rooms_spec s ws with h1 | ⟨rid, h1⟩ |
        ⟨rid, room, room', hget, h1, hcode, hnotempty⟩
      · left; exact h1
      · right; left; exact ⟨rid, h1⟩
      · right; right; left
        exact ⟨rid, room, room', hget, h1, hcode, fun he => absurd he hnotempty⟩
  | message ws msg k =>
      have happ : applyOp s (Op.message ws msg k) = handleMessage s ws msg k := rfl
      rw [happ]
      by_cases ht1 : msg.type = "register-id"
      · left
        unfold handleMessage
        simp [ht1]
      · by_cases ht2 : msg.type = "join"
        · have hmj : (handleMessage s ws msg k).1 = (handleJoin s ws msg k).1 := by
            unfold handleMessage
            simp [ht1, ht2]
          rw [hmj]
          rcases handleJoin_rooms_spec s ws msg k with h1 | ⟨rid, hrid, hcases⟩
          · left; exact h1
          · rcases hcases with ⟨room, room', hget, h1, hcode, himp⟩ |
              ⟨hget, room', h1, hcode, himp⟩
            · right; right; left
              exact ⟨rid, room, room', hget, h1, hcode, himp⟩
            · right; right; right
              exact ⟨ws, msg, k, rid, rfl, ht2, hrid, hget, room', h1, hcode, himp⟩
        · by_cases ht3 : msg.type = "offer" ∨ msg.type = "answer" ∨
              msg.type = "ice-candidate"
          · left
            unfold handleMessage
            rw [if_neg ht1, if_neg ht2, if_pos ht3, handleRelay_fst]
          · left
            unfold handleMessage
            rw [if_neg ht1, if_neg ht2, if_neg ht3]

theorem applyOp_roomsNodup (s : ServerState) (op : Op)
    (h : KeysNodup s.rooms) : KeysNodup (applyOp s op).1.rooms := by
  rcases applyOp_rooms_spec s op with h1 | ⟨rid, h1⟩ |
    ⟨rid, room, room', -, h1, -, -⟩ | ⟨ws, msg, k, rid, -, -, -, -, room', h1, -, -⟩ <;>
    rw [h1]
  · exact h
  · exact keysNodup_erase _ _ h
  · exact keysNodup_set _ _ _ h
  · exact keysNodup_set _ _ _ h

theorem reachable_roomsNodup (sj : Bool) (s : ServerState)
    (h : ReachableG sj s) : KeysNodup s.rooms := by
  induction h with
  | init => simp [initialState, KeysNodup]
  | connect s ws hr hfresh ih => exact ih
  | message s ws msg k hr hlive hjoin ih =>
      exact applyOp_roomsNodup s (Op.message ws msg k) ih
  | drop s ws hr ih => exact ih
  | close s ws hr hlive ih => exact applyOp_roomsNodup s (Op.close ws) ih

theorem reachable_validCodes (sj : Bool) (s : ServerState)
    (h : ReachableG sj s) :
    ∀ rn room, mapGet s.rooms rn = some room → ValidCode room.code := by
  have step : ∀ (s' : ServerState) (op : Op), KeysNodup s'.rooms →
      (∀ rn room, mapGet s'.rooms rn = some room → ValidCode room.code) →
      ∀ rn room, mapGet (applyOp s' op).1.rooms rn = some room →
        ValidCode room.code := by
    intro s' op hnd ih rn room hg
    rcases applyOp_rooms_spec s' op with h1 | ⟨rid, h1⟩ |
      ⟨rid, room0, room0', hget0, h1, hcode, -⟩ |
      ⟨ws, msg, k, rid, -, -, -, hget0, room0', h1, hcode, -⟩
    · rw [h1] at hg
      exact ih rn room hg
    · rw [h1] at hg
      exact ih rn room (mapGet_erase_some _ _ _ _ hnd hg)
    · rw [h1] at hg
      by_cases he : rn = rid
      · subst he
        rw [mapGet_set_self] at hg
        obtain rfl := Option.some.inj hg
        rw [hcode]
        exact ih rn room0 hget0
      · rw [mapGet_set_ne _ _ _ _ he] at hg
        exact ih rn room hg
    · rw [h1] at hg
      by_cases he : rn = rid
      · subst he
        rw [mapGet_set_self] at hg
        obtain rfl := Option.some.inj hg
        rw [hcode]
        exact validCode_generate k
      · rw [mapGet_set_ne _ _ _ _ he] at hg
        exact ih rn room hg
  suffices hh : KeysNodup s.rooms ∧
      (∀ rn room, mapGet s.rooms rn = some room → ValidCode room.code) from hh.2
  induction h with
  | init =>
      constructor
      · simp [initialState, KeysNodup]
      · intro rn room hg
        simp [initialState, mapGet] at hg
  | connect s ws hr hfresh ih => exact ih
  | message s ws msg k hr hlive hjoin ih =>
      exact ⟨applyOp_roomsNodup s (Op.message ws msg k) ih.1,
        step s (Op.message ws msg k) ih.1 ih.2⟩
  | drop s ws hr ih => exact ih
  | close s ws hr hlive ih =>
      exact ⟨applyOp_roomsNodup s (Op.close ws) ih.1,
        step s (Op.close ws) ih.1 ih.2⟩

theorem applyOp_code_immutable (s : ServerState) (op : Op)
    (hnd : KeysNodup s.rooms) :
    ∀ rn room room', mapGet s.rooms rn = some room →
      mapGet (applyOp s op).1.rooms rn = some room' →
      room'.code = room.code := by
  intro rn room room' hg hg'
  rcases applyOp_rooms_spec s op with h1 | ⟨rid, h1⟩ |
    ⟨rid, room0, room0', hget0, h1, hcode, -⟩ |
    ⟨ws, msg, k, rid, -, -, -, hget0, room0', h1, -, -⟩
  · rw [h1, hg] at hg'
    obtain rfl := Option.some.inj hg'
    rfl
  · rw [h1] at hg'
    by_cases he : rn = rid
    · subst he
      rw [mapGet_erase_self _ _ hnd] at hg'
      exact absurd hg' (by simp)
    · rw [mapGet_erase_ne _ _ _ he, hg] at hg'
      obtain rfl := Option.some.inj hg'
      rfl
  · rw [h1] at hg'
    by_cases he : rn = rid
    · subst he
      rw [mapGet_set_self] at hg'
      obtain rfl := Option.some.inj hg'
      rw [hget0] at hg
      obtain rfl := Option.some.inj hg
      exact hcode
    · rw [mapGet_set_ne _ _ _ _ he, hg] at hg'
      obtain rfl := Option.some.inj hg'
      rfl
  · rw [h1] at hg'
    by_cases he : rn = rid
    · subst he
      rw [hget0] at hg
      exact absurd hg (by simp)
    · rw [mapGet_set_ne _ _ _ _ he, hg] at hg'
      obtain rfl := Option.some.inj hg'
      rfl

theorem applyOp_empty_only_denied_join (s : ServerState) (op : Op)
    (hnd : KeysNodup s.rooms) :
    ∀ rn room', mapGet (applyOp s op).1.rooms rn = some room' →
      room'.sender = none → room'.receivers = [] →
      (∃ room, mapGet s.rooms rn = some room ∧ room.sender = none ∧
        room.receivers = []) ∨
      (∃ ws msg k, op = Op.message ws msg k ∧ msg.type = "join" ∧
        msg.room = some rn ∧ msg.role = some "receiver" ∧
        mapGet s.rooms rn = none ∧ msg.code ≠ some (generateRoomCode k)) := by
  intro rn room' hg' hsend hrecv
  rcases applyOp_rooms_spec s op with h1 | ⟨rid, h1⟩ |
    ⟨rid, room0, room0', hget0, h1, hcode, himp⟩ |
    ⟨ws, msg, k, rid, hop, htype, hroomf, hget0, room0', h1, hcode, himp⟩
  · rw [h1] at hg'
    exact Or.inl ⟨room', hg', hsend, hrecv⟩
  · rw [h1] at hg'
    by_cases he : rn = rid
    · subst he
      rw [mapGet_erase_self _ _ hnd] at hg'
      exact absurd hg' (by simp)
    · rw [mapGet_erase_ne _ _ _ he] at hg'
      exact Or.inl ⟨room', hg', hsend, hrecv⟩
  · rw [h1] at hg'
    by_cases he : rn = rid
    · subst he
      rw [mapGet_set_self] at hg'
      obtain rfl := Option.some.inj hg'
      obtain ⟨hs0, hr0⟩ := himp ⟨hsend, hrecv⟩
      exact Or.inl ⟨room0, hget0, hs0, hr0⟩
    · rw [mapGet_set_ne _ _ _ _ he] at hg'
      exact Or.inl ⟨room', hg', hsend, hrecv⟩
  · rw [h1] at hg'
    by_cases he : rn = rid
    · subst he
      rw [mapGet_set_self] at hg'
      obtain rfl := Option.some.inj hg'
      obtain ⟨hrole, hcodene⟩ := himp ⟨hsend, hrecv⟩
      exact Or.inr ⟨ws, msg, k, hop, htype, hroomf, hrole, hget0, hcodene⟩
    · rw [mapGet_set_ne _ _ _ _ he] at hg'
      exact Or.inl ⟨room', hg', hsend, hrecv⟩

theorem reachable_inv (sj : Bool) (s : ServerState) (h : ReachableG sj s) :
    sj = true → Inv s := by
  induction h with
  | init => exact fun _ => inv_initial
  | connect s ws hr hfresh ih =>
      exact fun hsj => inv_connect s ws (ih hsj) hfresh
  | message s ws msg k hr hlive hjoin ih =>
      intro hsj
      have hi := ih hsj
      by_cases ht1 : msg.type = "register-id"
      · have hstate : (handleMessage s ws msg k).1 =
            { s with socketMeta := mapSet s.socketMeta ws { getMeta s.socketMeta ws with peerId := msg.peerId } } := by
          unfold handleMessage
          simp [ht1]
        rw [hstate]
        exact inv_setPeerId s ws msg.peerId hi
      · by_cases ht2 : msg.type = "join"
        · have hstate : (handleMessage s ws msg k).1 = (handleJoin s ws msg k).1 := by
            unfold handleMessage
            simp [ht1, ht2]
          rw [hstate]
          exact inv_join s ws msg k hi (hjoin hsj ht2)
        · by_cases ht3 : msg.type = "offer" ∨ msg.type = "answer" ∨
              msg.type = "ice-candidate"
          · have hstate : (handleMessage s ws msg k).1 = s := by
              unfold handleMessage
              rw [if_neg ht1, if_neg ht2, if_pos ht3, handleRelay_fst]
            rw [hstate]
            exact hi
          · have hstate : (handleMessage s ws msg k).1 = s := by
              unfold handleMessage
              rw [if_neg ht1, if_neg ht2, if_neg ht3]
            rw [hstate]
            exact hi
  | drop s ws hr ih =>
      exact fun hsj =>
        inv_congr s { s with openConns := setDelete s.openConns ws } rfl rfl (ih hsj)
  | close s ws hr hlive ih =>
      exact fun hsj => inv_close s ws (ih hsj)

theorem inv_reachableSJ (s : ServerState) (h : ReachableSJ s) : Inv s :=
  reachable_inv true s h rfl

/-! Observations on hub output, and concrete fixtures used to exercise the
theorems on explicit inputs. -/

/-- The payloads delivered to one socket, in delivery order. -/
def msgsTo (out : Out) (ws : SessionId) : List SignalMessage :=
  (out.filter (fun p => p.1 == ws)).map Prod.snd

/-- m1 is delivered to ws strictly before m2. -/
def receivedBefore (out : Out) (ws : SessionId) (m1 m2 : SignalMessage) : Prop :=
  m1 ∈ msgsTo out ws ∧ m2 ∈ msgsTo out ws ∧
    (msgsTo out ws).indexOf m1 < (msgsTo out ws).indexOf m2

instance (out : Out) (ws : SessionId) (m1 m2 : SignalMessage) :
    Decidable (receivedBefore out ws m1 m2) := by
  unfold receivedBefore
  infer_instance

/-- The agreement between room membership and session metadata as the spec
states it: the registry and the metadata table are two views of one
relation. -/
def Agreement (s : ServerState) : Prop :=
  ∀ p ∈ s.rooms, ∀ q ∈ s.socketMeta,
    ((p.2.sender = some q.1) ↔
      (q.2.role = some "sender" ∧ q.2.roomName = some p.1)) ∧
    ((q.1 ∈ p.2.receivers) ↔
      (q.2.role = some "receiver" ∧ q.2.roomName = some p.1))

instance (s : ServerState) : Decidable (Agreement s) := by
  unfold Agreement
  infer_instance

/-- One fresh connection, socket 0. -/
def sOneConn : ServerState :=
  { rooms := [], socketMeta := [(0, freshMeta)], openConns := [0] }

theorem sOneConn_reachable : Reachable sOneConn :=
  ReachableG.connect false initialState 0 (ReachableG.init false) rfl

/-- A receiver join for an unknown room, carrying no code. -/
def denyJoinMsg : SignalMessage :=
  { type := "join", room := some "home", role := some "receiver" }

/-- The state after socket 0's denied receiver join of the unknown room
"home": the room was created empty by getRoom and stays in the registry. -/
def deniedJoinState : ServerState := (handleMessage sOneConn 0 denyJoinMsg 0).1

theorem deniedJoinState_reachable : Reachable deniedJoinState :=
  ReachableG.message false sOneConn 0 denyJoinMsg 0 sOneConn_reachable rfl
    (fun h => absurd h (by decide))

/-! Claim C10. -/

/-- C10: a join message whose room or role field is missing or empty gets no
reply at all and changes no state; in particular no room is created. -/
theorem C10_join_missing_fields_noop (s : ServerState) (ws : SessionId)
    (msg : SignalMessage) (k : Nat) (htype : msg.type = "join")
    (hbad : ¬ truthy msg.room ∨ ¬ truthy msg.role) :
    handleMessage s ws msg k = (s, []) := by
  unfold handleMessage
  rw [if_neg (by simp [htype]), if_pos htype]
  unfold handleJoin
  rw [if_pos hbad]

theorem C10_join_missing_fields_noop_witness :
    handleMessage sOneConn 0 { type := "join", room := some "home" } 0 =
      (sOneConn, []) :=
  C10_join_missing_fields_noop sOneConn 0
    { type := "join", room := some "home" } 0 rfl (by decide)

/-! Claim C1. -/

/-- C1 fails as stated: a receiver join naming an unknown room with a
missing code is denied with the right reason, but the registry is mutated:
getRoom created the room before the code check, and the empty room stays. -/
theorem C1_counterexample :
    denyJoinMsg.role = some "receiver" ∧ denyJoinMsg.code = none ∧
    (handleMessage sOneConn 0 denyJoinMsg 0).2 =
      [(0, joinDeniedMsg "Room code required")] ∧
    (handleMessage sOneConn 0 denyJoinMsg 0).1.rooms ≠ sOneConn.rooms := by
  decide

/-- C1 (amended to rooms already present in the registry): a receiver join
with a missing or wrong code for an existing room is answered with
join-denied, whose reason distinguishes a missing-or-empty code from a
wrong one, and neither the registry, nor the room, nor any session metadata
changes. -/
theorem C1_receiver_join_denied (s : ServerState) (ws : SessionId)
    (msg : SignalMessage) (k : Nat) (rid : String) (room : Room)
    (htype : msg.type = "join") (hroom : msg.room = some rid) (hne : rid ≠ "")
    (hrole : msg.role = some "receiver")
    (hget : mapGet s.rooms rid = some room)
    (hcode : msg.code ≠ some room.code) :
    handleMessage s ws msg k =
      (s, [(ws, joinDeniedMsg
        (if truthy msg.code then "Invalid room code" else "Room code required"))]) := by
  have htr : truthy (some rid) := ⟨by simp, by simpa using hne⟩
  have htrecv : truthy (some "receiver") := by decide
  unfold handleMessage
  rw [if_neg (by simp [htype]), if_pos htype]
  unfold handleJoin
  simp [hroom, hrole, htr, htrecv, getRoom, hget, hcode]

theorem C1_receiver_join_denied_witness :
    handleMessage deniedJoinState 0
        { type := "join", room := some "home", role := some "receiver", code := some "9999" } 0 =
      (deniedJoinState, [(0, joinDeniedMsg "Invalid room code")]) :=
  C1_receiver_join_denied deniedJoinState 0
    { type := "join", room := some "home", role := some "receiver", code := some "9999" }
    0 "home" { sender := none, receivers := [], code := "1000" }
    rfl rfl (by decide) rfl (by decide) (by decide)

/-! Claim C2. -/

/-- C2 fails as stated: after a denied receiver join of the unknown room
"home", the reachable registry holds a room with no sender and no
receivers, and nothing ever removes it. -/
theorem C2_counterexample :
    Reachable deniedJoinState ∧
    mapGet deniedJoinState.rooms "home" =
      some { sender := none, receivers := [], code := "1000" } :=
  ⟨deniedJoinState_reachable, by decide⟩

/-- C2 (amended): an empty room can be introduced into the registry only by
a denied receiver join naming an unknown room; every other operation either
leaves an empty room that was already there or yields only non-empty rooms,
and in particular a room emptied by a disconnect is removed within that
same close operation. -/
theorem C2_empty_room_only_from_denied_join (s : ServerState)
    (hs : Reachable s) (op : Op) :
    ∀ rn room', mapGet (applyOp s op).1.rooms rn = some room' →
      room'.sender = none → room'.receivers = [] →
      (∃ room, mapGet s.rooms rn = some room ∧ room.sender = none ∧
        room.receivers = []) ∨
      (∃ ws msg k, op = Op.message ws msg k ∧ msg.type = "join" ∧
        msg.room = some rn ∧ msg.role = some "receiver" ∧
        mapGet s.rooms rn = none ∧ msg.code ≠ some (generateRoomCode k)) :=
  applyOp_empty_only_denied_join s op (reachable_roomsNodup false s hs)

/-! Claim C9. -/

/-- C9: every registered room's access code is the decimal rendering of an
integer in 1000..9999, hence a four-decimal-digit string, and no operation
changes the code of a room that stays registered; a code is fixed when
getRoom first creates the room. -/
theorem C9_room_code_shape_and_immutable (s : ServerState) (hs : Reachable s) :
    (∀ rn room, mapGet s.rooms rn = some room →
      ValidCode room.code ∧ room.code.length = 4 ∧
      ∀ ch ∈ room.code.toList, ch.isDigit = true) ∧
    (∀ op rn room room', mapGet s.rooms rn = some room →
      mapGet (applyOp s op).1.rooms rn = some room' →
      room'.code = room.code) := by
  constructor
  · intro rn room hg
    have hv := reachable_validCodes false s hs rn room hg
    obtain ⟨hlen, hdig⟩ := validCode_length_digits _ hv
    exact ⟨hv, hlen, hdig⟩
  · intro op rn room room' hg hg'
    exact applyOp_code_immutable s op (reachable_roomsNodup false s hs)
      rn room room' hg hg'

theorem C9_room_code_shape_and_immutable_witness :
    (∀ rn room, mapGet deniedJoinState.rooms rn = some room →
      ValidCode room.code ∧ room.code.length = 4 ∧
      ∀ ch ∈ room.code.toList, ch.isDigit = true) ∧
    (∀ op rn room room', mapGet deniedJoinState.rooms rn = some room →
      mapGet (applyOp deniedJoinState op).1.rooms rn = some room' →
      room'.code = room.code) :=
  C9_room_code_shape_and_immutable deniedJoinState deniedJoinState_reachable

/-! A concrete single-join trace: a sender and one receiver in room "home". -/

/-- Join message of a sender for room "home". -/
def senderJoinMsg : SignalMessage :=
  { type := "join", room := some "home", role := some "sender" }

/-- Join message of a receiver for room "home" with the right code. -/
def recvJoinMsg : SignalMessage :=
  { type := "join", room := some "home", role := some "receiver",
    code := some "1000" }

def sTrace1 : ServerState := handleConnection initialState 0

def sTrace2 : ServerState := (handleMessage sTrace1 0 senderJoinMsg 0).1

def sTrace3 : ServerState := handleConnection sTrace2 1

def sTrace4 : ServerState := (handleMessage sTrace3 1 recvJoinMsg 0).1

theorem sTrace4_reachableSJ : ReachableSJ sTrace4 :=
  ReachableG.message true sTrace3 1 recvJoinMsg 0
    (ReachableG.connect true sTrace2 1
      (ReachableG.message true sTrace1 0 senderJoinMsg 0
        (ReachableG.connect true initialState 0 (ReachableG.init true) rfl)
        (by decide) (fun _ _ => by decide))
      (by decide))
    (by decide) (fun _ _ => by decide)

/-! Claim C4. -/

/-- C4: in every state reachable when each session joins at most once, a
room's sender is never also a member of its receivers set. -/
theorem C4_sender_not_in_receivers (s : ServerState) (hs : ReachableSJ s) :
    ∀ rn room ws, mapGet s.rooms rn = some room → room.sender = some ws →
      ws ∉ room.receivers := by
  intro rn room ws hg hsend hmem
  have hinv := inv_reachableSJ s hs
  obtain ⟨m1, hm1, hrole1, -⟩ := hinv.senderMeta rn room ws hg hsend
  obtain ⟨m2, hm2, -, hrole2, -⟩ := hinv.recvMeta rn room ws hg hmem
  rw [hm1] at hm2
  obtain rfl := Option.some.inj hm2
  exact hrole2 hrole1

theorem C4_sender_not_in_receivers_witness :
    (0 : SessionId) ∉
      ({ sender := some 0, receivers := [1], code := "1000" } : Room).receivers :=
  C4_sender_not_in_receivers sTrace4 sTrace4_reachableSJ "home"
    { sender := some 0, receivers := [1], code := "1000" } 0 (by decide) rfl

/-! Claim C8. -/

/-- Second join of socket 0, claiming room "away" as sender while it is
still the registered sender of "home". -/
def c8Msg : SignalMessage :=
  { type := "join", room := some "away", role := some "sender" }

def c8State : ServerState := (handleMessage sTrace2 0 c8Msg 1).1

theorem c8State_reachable : Reachable c8State :=
  ReachableG.message false sTrace2 0 c8Msg 1
    (ReachableG.message false sTrace1 0 senderJoinMsg 0
      (ReachableG.connect false initialState 0 (ReachableG.init false) rfl)
      (by decide) (fun h _ => absurd h (by decide)))
    (by decide) (fun h _ => absurd h (by decide))

/-- C8 fails as stated: a session that joins twice (sender of "home", then
sender of "away") leaves room "home" with it as sender while its roomName
is "away", so room state and session state disagree in a reachable state. -/
theorem C8_counterexample : Reachable c8State ∧ ¬ Agreement c8State :=
  ⟨c8State_reachable, by decide⟩

/-- C8 (amended to traces where each session joins at most once, with the
receiver side stated as the code implements it: any assigned non-sender
role puts the session in receivers): in every reachable state, for each
registered room and live session, room.sender is the session iff its role
is sender and its roomName is the room's name, and the session is in
room.receivers iff its role is assigned, not sender, and its roomName is
the room's name. -/
theorem C8_agreement_single_join (s : ServerState) (hs : ReachableSJ s) :
    ∀ p ∈ s.rooms, ∀ q ∈ s.socketMeta,
      ((p.2.sender = some q.1) ↔
        (q.2.role = some "sender" ∧ q.2.roomName = some p.1)) ∧
      ((q.1 ∈ p.2.receivers) ↔
        (truthy q.2.role ∧ q.2.role ≠ some "sender" ∧
          q.2.roomName = some p.1)) := by
  have hinv := inv_reachableSJ s hs
  rintro ⟨rn, room⟩ hp ⟨w, mq⟩ hq
  have hgr : mapGet s.rooms rn = some room :=
    mapGet_of_mem _ _ _ hinv.roomsNodup hp
  have hgm : mapGet s.socketMeta w = some mq :=
    mapGet_of_mem _ _ _ hinv.metasNodup hq
  dsimp only
  constructor
  · constructor
    · intro hsend
      obtain ⟨m, hm, hrole, hrn⟩ := hinv.senderMeta rn room w hgr hsend
      rw [hgm] at hm
      obtain rfl := Option.some.inj hm
      exact ⟨hrole, hrn⟩
    · rintro ⟨hrole, hrn⟩
      obtain ⟨-, -, room', hroom', hc1, -⟩ := hinv.metaRoom w mq rn hgm hrn
      rw [hgr] at hroom'
      obtain rfl := Option.some.inj hroom'
      exact hc1 hrole
  · constructor
    · intro hmem
      obtain ⟨m, hm, htr, hrole, hrn⟩ := hinv.recvMeta rn room w hgr hmem
      rw [hgm] at hm
      obtain rfl := Option.some.inj hm
      exact ⟨htr, hrole, hrn⟩
    · rintro ⟨-, hrole, hrn⟩
      obtain ⟨-, -, room', hroom', -, hc2⟩ := hinv.metaRoom w mq rn hgm hrn
      rw [hgr] at hroom'
      obtain rfl := Option.some.inj hroom'
      exact hc2 hrole

theorem C8_agreement_single_join_witness :
    ((({ sender := some 0, receivers := [1], code := "1000" } : Room).sender =
        some (0 : SessionId)) ↔
      (({ role := some "sender", peerId := none, roomName := some "home" } : SocketMeta).role = some "sender" ∧
       ({ role := some "sender", peerId := none, roomName := some "home" } : SocketMeta).roomName = some "home")) ∧
    (((0 : SessionId) ∈
        ({ sender := some 0, receivers := [1], code := "1000" } : Room).receivers) ↔
      (truthy ({ role := some "sender", peerId := none, roomName := some "home" } : SocketMeta).role ∧
       ({ role := some "sender", peerId := none, roomName := some "home" } : SocketMeta).role ≠ some "sender" ∧
       ({ role := some "sender", peerId := none, roomName := some "home" } : SocketMeta).roomName = some "home")) :=
  C8_agreement_single_join sTrace4 sTrace4_reachableSJ
    ("home", { sender := some 0, receivers := [1], code := "1000" }) (by decide)
    (0, { role := some "sender", peerId := none, roomName := some "home" })
    (by decide)

/-! Claim C3. -/

/-- C3: when a session joins a room that already has a different sender S
with role sender, S's role becomes receiver (the rest of its metadata is
unchanged), S receives role-changed, S is added to the room's receivers,
the joining session becomes the room's sender, and every receiver then
in the room (S included) receives sender-ready. -/
theorem C3_second_sender_demotes (s : ServerState) (ws S : SessionId)
    (msg : SignalMessage) (k : Nat) (rid : String) (room : Room)
    (htype : msg.type = "join") (hroom : msg.room = some rid) (hne : rid ≠ "")
    (hrole : msg.role = some "sender")
    (hget : mapGet s.rooms rid = some room)
    (hS : room.sender = some S) (hSne : S ≠ ws) :
    getMeta (handleMessage s ws msg k).1.socketMeta S =
      { getMeta s.socketMeta S with role := some "receiver" } ∧
    (S, roleChangedMsg) ∈ (handleMessage s ws msg k).2 ∧
    (∃ room', mapGet (handleMessage s ws msg k).1.rooms rid = some room' ∧
      room'.sender = some ws ∧ S ∈ room'.receivers ∧
      room'.receivers = setAdd room.receivers S ∧
      ∀ r ∈ room'.receivers,
        (r, senderReadyMsg) ∈ (handleMessage s ws msg k).2) := by
  have htr : truthy (some rid) := ⟨by simp, by simpa using hne⟩
  have htsend : truthy (some "sender") := by decide
  have hres : handleMessage s ws msg k =
      ({ s with
          rooms := mapSet s.rooms rid { sender := some ws, receivers := setAdd room.receivers S, code := room.code },
          socketMeta := mapSet (mapSet s.socketMeta ws { getMeta s.socketMeta ws with roomName := some rid, role := some "sender" }) S { getMeta (mapSet s.socketMeta ws { getMeta s.socketMeta ws with roomName := some rid, role := some "sender" }) S with role := some "receiver" } },
        (S, roleChangedMsg) :: (ws, roomCodeMsg room.code) ::
          ((setAdd room.receivers S).map (fun r => (r, senderReadyMsg)) ++
            [(ws, joinedMsg (some "sender"))])) := by
    unfold handleMessage
    rw [if_neg (by simp [htype]), if_pos htype]
    unfold handleJoin
    simp [hroom, hrole, htr, htsend, getRoom, hget, hS, hSne]
  rw [hres]
  refine ⟨?_, ?_, ?_⟩
  · dsimp only
    rw [getMeta_set_self, getMeta_set_ne _ _ _ _ hSne]
  · exact List.mem_cons_self _ _
  · refine ⟨{ sender := some ws, receivers := setAdd room.receivers S, code := room.code },
      mapGet_set_self _ _ _, rfl, (mem_setAdd _ _ _).2 (Or.inr rfl), rfl, ?_⟩
    intro r hr
    dsimp only at hr ⊢
    refine List.mem_cons.2 (Or.inr (List.mem_cons.2 (Or.inr ?_)))
    exact List.mem_append.2 (Or.inl (List.mem_map_of_mem _ hr))

theorem C3_second_sender_demotes_witness :
    getMeta (handleMessage (handleConnection sTrace4 2) 2 senderJoinMsg 5).1.socketMeta 0 =
      { getMeta (handleConnection sTrace4 2).socketMeta 0 with role := some "receiver" } ∧
    ((0 : SessionId), roleChangedMsg) ∈
      (handleMessage (handleConnection sTrace4 2) 2 senderJoinMsg 5).2 ∧
    (∃ room', mapGet (handleMessage (handleConnection sTrace4 2) 2 senderJoinMsg 5).1.rooms "home" = some room' ∧
      room'.sender = some 2 ∧ (0 : SessionId) ∈ room'.receivers ∧
      room'.receivers =
        setAdd ({ sender := some 0, receivers := [1], code := "1000" } : Room).receivers 0 ∧
      ∀ r ∈ room'.receivers,
        (r, senderReadyMsg) ∈
          (handleMessage (handleConnection sTrace4 2) 2 senderJoinMsg 5).2) :=
  C3_second_sender_demotes (handleConnection sTrace4 2) 2 0 senderJoinMsg 5
    "home" { sender := some 0, receivers := [1], code := "1000" }
    rfl rfl (by decide) rfl (by decide) rfl (by decide)

/-! Claim C6. -/

theorem msgsTo_append (a b : Out) (ws : SessionId) :
    msgsTo (a ++ b) ws = msgsTo a ws ++ msgsTo b ws := by
  simp [msgsTo]

theorem msgsTo_cons_self (m : SignalMessage) (rest : Out) (ws : SessionId) :
    msgsTo ((ws, m) :: rest) ws = m :: msgsTo rest ws := by
  simp [msgsTo]

theorem msgsTo_cons_ne (w : SessionId) (m : SignalMessage) (rest : Out)
    (ws : SessionId) (h : w ≠ ws) :
    msgsTo ((w, m) :: rest) ws = msgsTo rest ws := by
  simp [msgsTo, h]

theorem msgsTo_map_not_mem (l : List SessionId) (m : SignalMessage)
    (ws : SessionId) (h : ws ∉ l) :
    msgsTo (l.map (fun r => (r, m))) ws = [] := by
  induction l with
  | nil => simp [msgsTo]
  | cons r rest ih =>
      have hr : r ≠ ws := fun he => h (he ▸ List.mem_cons_self r rest)
      rw [List.map_cons, msgsTo_cons_ne r m _ ws hr]
      exact ih (fun he => h (List.mem_cons.2 (Or.inr he)))

/-- C6 fails as stated: on a successful sender join the hub sends room-code
first and the joined confirmation second, so joined does not precede
room-code. -/
theorem C6_counterexample :
    roomCodeMsg "1000" ∈ msgsTo (handleMessage sTrace1 0 senderJoinMsg 0).2 0 ∧
    joinedMsg (some "sender") ∈
      msgsTo (handleMessage sTrace1 0 senderJoinMsg 0).2 0 ∧
    ¬ receivedBefore (handleMessage sTrace1 0 senderJoinMsg 0).2 0
        (joinedMsg (some "sender")) (roomCodeMsg "1000") := by
  decide

/-- C6 (amended: the follow-up message precedes the join confirmation): on
every successful join, stated for the room getRoom looks up or freshly
creates, a joining sender receives exactly room-code (with that room's
access code) and then joined, and a joining receiver with the right code in
a room with a present sender receives exactly sender-ready and then
joined. -/
theorem C6_followup_then_joined (s : ServerState) (ws : SessionId)
    (msg : SignalMessage) (k : Nat) (rid : String)
    (htype : msg.type = "join") (hroom : msg.room = some rid) (hne : rid ≠ "") :
    (msg.role = some "sender" → ws ∉ (getRoom s.rooms rid k).2.receivers →
      msgsTo (handleMessage s ws msg k).2 ws =
        [roomCodeMsg (getRoom s.rooms rid k).2.code, joinedMsg (some "sender")]) ∧
    (msg.role = some "receiver" →
      msg.code = some (getRoom s.rooms rid k).2.code →
      (getRoom s.rooms rid k).2.sender.isSome →
      msgsTo (handleMessage s ws msg k).2 ws =
        [senderReadyMsg, joinedMsg (some "receiver")]) := by
  have htr : truthy (some rid) := ⟨by simp, by simpa using hne⟩
  have htsend : truthy (some "sender") := by decide
  have htrecv : truthy (some "receiver") := by decide
  cases hget : mapGet s.rooms rid with
  | some room =>
      have hgr2 : (getRoom s.rooms rid k).2 = room := by simp [getRoom, hget]
      rw [hgr2]
      constructor
      · intro hrole hmem
        cases hS : room.sender with
        | some S =>
            by_cases hSne : S = ws
            · have hres : (handleMessage s ws msg k).2 =
                  (ws, roomCodeMsg room.code) ::
                    (room.receivers.map (fun r => (r, senderReadyMsg)) ++
                      [(ws, joinedMsg (some "sender"))]) := by
                unfold handleMessage
                rw [if_neg (by simp [htype]), if_pos htype]
                unfold handleJoin
                simp [hroom, hrole, htr, htsend, getRoom, hget, hS, hSne]
              rw [hres, msgsTo_cons_self, msgsTo_append,
                msgsTo_map_not_mem _ _ _ hmem, msgsTo_cons_self]
              rfl
            · have hres : (handleMessage s ws msg k).2 =
                  (S, roleChangedMsg) :: (ws, roomCodeMsg room.code) ::
                    ((setAdd room.receivers S).map (fun r => (r, senderReadyMsg)) ++
                      [(ws, joinedMsg (some "sender"))]) := by
                unfold handleMessage
                rw [if_neg (by simp [htype]), if_pos htype]
                unfold handleJoin
                simp [hroom, hrole, htr, htsend, getRoom, hget, hS, hSne]
              have hmem2 : ws ∉ setAdd room.receivers S := by
                intro hx
                rcases (mem_setAdd _ _ _).1 hx with hx | hx
                · exact hmem hx
                · exact hSne hx.symm
              rw [hres, msgsTo_cons_ne _ _ _ _ hSne, msgsTo_cons_self,
                msgsTo_append, msgsTo_map_not_mem _ _ _ hmem2, msgsTo_cons_self]
              rfl
        | none =>
            have hres : (handleMessage s ws msg k).2 =
                (ws, roomCodeMsg room.code) ::
                  (room.receivers.map (fun r => (r, senderReadyMsg)) ++
                    [(ws, joinedMsg (some "sender"))]) := by
              unfold handleMessage
              rw [if_neg (by simp [htype]), if_pos htype]
              unfold handleJoin
              simp [hroom, hrole, htr, htsend, getRoom, hget, hS]
            rw [hres, msgsTo_cons_self, msgsTo_append,
              msgsTo_map_not_mem _ _ _ hmem, msgsTo_cons_self]
            rfl
      · intro hrole hcode hsome
        obtain ⟨S, hS⟩ := Option.isSome_iff_exists.1 hsome
        have hres : (handleMessage s ws msg k).2 =
            (ws, senderReadyMsg) :: [(ws, joinedMsg (some "receiver"))] := by
          unfold handleMessage
          rw [if_neg (by simp [htype]), if_pos htype]
          unfold handleJoin
          simp [hroom, hrole, htr, htrecv, getRoom, hget, hcode, hS]
        rw [hres, msgsTo_cons_self, msgsTo_cons_self]
        rfl
  | none =>
      have hgr2 : (getRoom s.rooms rid k).2 =
          { sender := none, receivers := [], code := generateRoomCode k } := by
        simp [getRoom, hget]
      rw [hgr2]
      constructor
      · intro hrole hmem
        have hres : (handleMessage s ws msg k).2 =
            [(ws, roomCodeMsg (generateRoomCode k)),
             (ws, joinedMsg (some "sender"))] := by
          unfold handleMessage
          rw [if_neg (by simp [htype]), if_pos htype]
          unfold handleJoin
          simp [hroom, hrole, htr, htsend, getRoom, hget]
        rw [hres, msgsTo_cons_self, msgsTo_cons_self]
        rfl
      · intro hrole hcode hsome
        simp at hsome

theorem C6_followup_then_joined_witness :
    (senderJoinMsg.role = some "sender" →
      (0 : SessionId) ∉ (getRoom sTrace1.rooms "home" 0).2.receivers →
      msgsTo (handleMessage sTrace1 0 senderJoinMsg 0).2 0 =
        [roomCodeMsg (getRoom sTrace1.rooms "home" 0).2.code,
         joinedMsg (some "sender")]) ∧
    (senderJoinMsg.role = some "receiver" →
      senderJoinMsg.code = some (getRoom sTrace1.rooms "home" 0).2.code →
      (getRoom sTrace1.rooms "home" 0).2.sender.isSome →
      msgsTo (handleMessage sTrace1 0 senderJoinMsg 0).2 0 =
        [senderReadyMsg, joinedMsg (some "receiver")]) :=
  C6_followup_then_joined sTrace1 0 senderJoinMsg 0 "home" rfl rfl (by decide)

/-! Claim C5. -/

/-- C5: routing of offer/answer/ice-candidate messages.  The state never
changes; a session with no room is dropped silently; a sender with a
(truthy) to field reaches at most one receiver, and only one whose
registered identity equals to (at least one if such a receiver exists); a
sender without to reaches exactly the open receivers; a receiver reaches
the sender exactly when one is present and open; every forwarded copy is
the original message with from set to the sending session's registered
identity. -/
theorem C5_relay_routing (s : ServerState) (ws : SessionId)
    (msg : SignalMessage) (k : Nat)
    (htype : msg.type = "offer" ∨ msg.type = "answer" ∨
      msg.type = "ice-candidate") :
    (handleMessage s ws msg k).1 = s ∧
    ((getMeta s.socketMeta ws).roomName = none →
      (handleMessage s ws msg k).2 = []) ∧
    (∀ rn room, (getMeta s.socketMeta ws).roomName = some rn → rn ≠ "" →
      mapGet s.rooms rn = some room →
      ((getMeta s.socketMeta ws).role = some "sender" →
        (∀ t, msg.to' = some t → t ≠ "" →
          (∀ p ∈ (handleMessage s ws msg k).2,
            p.2 = withFrom msg (getMeta s.socketMeta ws).peerId ∧
            p.1 ∈ room.receivers ∧
            (getMeta s.socketMeta p.1).peerId = some t) ∧
          (handleMessage s ws msg k).2.length ≤ 1 ∧
          ((∃ r ∈ room.receivers, (getMeta s.socketMeta r).peerId = some t) →
            (handleMessage s ws msg k).2 ≠ [])) ∧
        ((msg.to' = none ∨ msg.to' = some "") →
          (handleMessage s ws msg k).2 =
            (room.receivers.filter (fun r => isOpen s r)).map
              (fun r => (r, withFrom msg (getMeta s.socketMeta ws).peerId)))) ∧
      ((getMeta s.socketMeta ws).role = some "receiver" →
        (∀ S, room.sender = some S →
          (isOpen s S = true →
            (handleMessage s ws msg k).2 =
              [(S, withFrom msg (getMeta s.socketMeta ws).peerId)]) ∧
          (isOpen s S = false → (handleMessage s ws msg k).2 = [])) ∧
        (room.sender = none → (handleMessage s ws msg k).2 = []))) := by
  have hmr : handleMessage s ws msg k = handleRelay s ws msg := by
    unfold handleMessage
    rcases htype with h | h | h <;> simp [h]
  rw [hmr]
  refine ⟨handleRelay_fst s ws msg, ?_, ?_⟩
  · intro h0
    unfold handleRelay
    simp [h0, truthy]
  · intro rn room hrn hne hgetr
    have htrn : truthy (some rn) := ⟨by simp, by simpa using hne⟩
    refine ⟨?_, ?_⟩
    · intro hrole
      constructor
      · intro t ht htne
        have htto : truthy msg.to' := by
          rw [ht]
          exact ⟨by simp, by simpa using htne⟩
        cases hfind : room.receivers.find?
            (fun r => (getMeta s.socketMeta r).peerId == msg.to') with
        | some r =>
            have hout : (handleRelay s ws msg).2 =
                [(r, withFrom msg (getMeta s.socketMeta ws).peerId)] := by
              unfold handleRelay
              simp [hrn, htrn, hgetr, hrole, htto, hfind]
            refine ⟨?_, ?_, ?_⟩
            · intro p hp
              rw [hout] at hp
              rcases List.mem_singleton.1 hp with rfl
              refine ⟨rfl, List.mem_of_find?_eq_some hfind, ?_⟩
              have hpred := List.find?_some hfind
              rw [ht] at hpred
              exact beq_iff_eq.1 hpred
            · rw [hout]
              simp
            · rw [hout]
              simp
        | none =>
            have hout : (handleRelay s ws msg).2 = [] := by
              unfold handleRelay
              simp [hrn, htrn, hgetr, hrole, htto, hfind]
            refine ⟨?_, ?_, ?_⟩
            · intro p hp
              rw [hout] at hp
              simp at hp
            · rw [hout]
              simp
            · rintro ⟨r, hrmem, hrid⟩
              have := List.find?_eq_none.1 hfind r hrmem
              rw [hrid, ht] at this
              simp at this
      · intro hto
        have hnt : ¬ truthy msg.to' := by
          rcases hto with h | h <;> simp [h, truthy]
        unfold handleRelay
        simp [hrn, htrn, hgetr, hrole, hnt]
    · intro hrole
      have hrole' : ¬ ((getMeta s.socketMeta ws).role = some "sender") := by
        simp [hrole]
      refine ⟨?_, ?_⟩
      · intro S hS
        constructor
        · intro hopen
          unfold handleRelay
          simp [hrn, htrn, hgetr, hrole', hS, hopen]
        · intro hclosed
          unfold handleRelay
          simp [hrn, htrn, hgetr, hrole', hS, hclosed]
      · intro hS
        unfold handleRelay
        simp [hrn, htrn, hgetr, hrole', hS]

/-! Claim C7. -/

theorem contains_setDelete_ne (l : List SessionId) (x r : SessionId)
    (h : r ≠ x) : (setDelete l x).contains r = l.contains r := by
  simp [List.contains, List.elem_eq_mem, mem_setDelete, h]

/-- C7: close reconciliation.  A session that never joined changes no room
or registry state and sends nothing.  If the closing session is the room's
current sender (in a consistent state), the sender is cleared, every open
receiver gets sender-left, and the receivers set is untouched (the room is
removed exactly when it has no receivers).  Otherwise exactly the closing
session is removed from the receivers, and the sender, if present and open,
gets receiver-left with the closing session's registered identity. -/
theorem C7_close_reconciliation (s : ServerState) (ws : SessionId)
    (hinv : Inv s) :
    ((getMeta s.socketMeta ws).roomName = none →
      (handleClose s ws).1.rooms = s.rooms ∧ (handleClose s ws).2 = []) ∧
    (∀ rn room, (getMeta s.socketMeta ws).roomName = some rn →
      mapGet s.rooms rn = some room →
      ((room.sender = some ws →
        (handleClose s ws).2 =
          (room.receivers.filter (fun r => isOpen s r)).map
            (fun r => (r, senderLeftMsg)) ∧
        (∀ room', mapGet (handleClose s ws).1.rooms rn = some room' →
          room'.sender = none ∧ room'.receivers = room.receivers) ∧
        (mapGet (handleClose s ws).1.rooms rn = none ↔ room.receivers = [])) ∧
       (room.sender ≠ some ws →
        (∀ room', mapGet (handleClose s ws).1.rooms rn = some room' →
          room'.sender = room.sender ∧
          ∀ r, r ∈ room'.receivers ↔ (r ∈ room.receivers ∧ r ≠ ws)) ∧
        (∀ S, room.sender = some S →
          (isOpen s S = true →
            (handleClose s ws).2 =
              [(S, receiverLeftMsg (getMeta s.socketMeta ws).peerId)]) ∧
          (isOpen s S = false → (handleClose s ws).2 = [])) ∧
        (room.sender = none → (handleClose s ws).2 = [])))) := by
  constructor
  · intro h0
    constructor
    · unfold handleClose
      simp [h0, truthy]
    · unfold handleClose
      simp [h0, truthy]
  · intro rn room hrn hgetr
    obtain ⟨m0, hgm⟩ : ∃ m0, mapGet s.socketMeta ws = some m0 := by
      cases hx : mapGet s.socketMeta ws with
      | none =>
          exfalso
          rw [getMeta, hx] at hrn
          simp [freshMeta] at hrn
      | some m0 => exact ⟨m0, rfl⟩
    have hrnm0 : m0.roomName = some rn := by simpa [getMeta, hgm] using hrn
    obtain ⟨hne, -, room0, hroom0, hc1, hc2⟩ := hinv.metaRoom ws m0 rn hgm hrnm0
    rw [hgetr] at hroom0
    obtain rfl := Option.some.inj hroom0
    have htr : truthy (getMeta s.socketMeta ws).roomName := by
      rw [hrn]
      exact ⟨by simp, by simpa using hne⟩
    constructor
    · intro hsw
      obtain ⟨m1, hm1, hrole1, -⟩ := hinv.senderMeta rn room ws hgetr hsw
      rw [hgm] at hm1
      obtain rfl := Option.some.inj hm1
      have hrole0 : (getMeta s.socketMeta ws).role = some "sender" := by
        simpa [getMeta, hgm] using hrole1
      have hnotmem : ws ∉ room.receivers := by
        intro hmem
        obtain ⟨m2, hm2, -, hrole2, -⟩ := hinv.recvMeta rn room ws hgetr hmem
        rw [hgm] at hm2
        obtain rfl := Option.some.inj hm2
        exact hrole2 hrole1
      have hfilter :
          room.receivers.filter
              (fun r => isOpen { s with socketMeta := mapErase s.socketMeta ws, openConns := setDelete s.openConns ws } r) =
            room.receivers.filter (fun r => isOpen s r) := by
        apply List.filter_congr
        intro r hr
        have hrne : r ≠ ws := fun he => hnotmem (he ▸ hr)
        simp only [isOpen]
        exact contains_setDelete_ne s.openConns ws r hrne
      refine ⟨?_, ?_, ?_⟩
      · have hout : (handleClose s ws).2 =
            (room.receivers.filter
              (fun r => isOpen { s with socketMeta := mapErase s.socketMeta ws, openConns := setDelete s.openConns ws } r)).map
              (fun r => (r, senderLeftMsg)) := by
          unfold handleClose
          simp [getMeta, hgm, hrnm0, htr, hne, truthy, hgetr, hrole1, hsw]
        rw [hout, hfilter]
      · intro room' hg'
        by_cases hempty : room.receivers = []
        · exfalso
          have : (handleClose s ws).1.rooms = mapErase s.rooms rn := by
            unfold handleClose
            simp [getMeta, hgm, hrnm0, htr, hne, truthy, hgetr, hrole1, hsw, hempty]
          rw [this, mapGet_erase_self _ _ hinv.roomsNodup] at hg'
          exact absurd hg' (by simp)
        · have : (handleClose s ws).1.rooms =
              mapSet s.rooms rn { room with sender := none } := by
            unfold handleClose
            simp [getMeta, hgm, hrnm0, htr, hne, truthy, hgetr, hrole1, hsw, hempty]
          rw [this, mapGet_set_self] at hg'
          obtain rfl := Option.some.inj hg'
          exact ⟨rfl, rfl⟩
      · constructor
        · intro hg'
          by_contra hempty
          have : (handleClose s ws).1.rooms =
              mapSet s.rooms rn { room with sender := none } := by
            unfold handleClose
            simp [getMeta, hgm, hrnm0, htr, hne, truthy, hgetr, hrole1, hsw, hempty]
          rw [this, mapGet_set_self] at hg'
          exact absurd hg' (by simp)
        · intro hempty
          have : (handleClose s ws).1.rooms = mapErase s.rooms rn := by
            unfold handleClose
            simp [getMeta, hgm, hrnm0, htr, hne, truthy, hgetr, hrole1, hsw, hempty]
          rw [this]
          exact mapGet_erase_self _ _ hinv.roomsNodup
    · intro hsnw
      have hcond : ¬ (m0.role = some "sender" ∧ room.sender = some ws) :=
        fun hx => hsnw hx.2
      refine ⟨?_, ?_, ?_⟩
      · intro room' hg'
        by_cases hclean : room.sender = none ∧ setDelete room.receivers ws = []
        · exfalso
          have : (handleClose s ws).1.rooms = mapErase s.rooms rn := by
            unfold handleClose
            simp [getMeta, hgm, hrnm0, htr, hne, truthy, hgetr, hcond,
              hclean.1, hclean.2]
          rw [this, mapGet_erase_self _ _ hinv.roomsNodup] at hg'
          exact absurd hg' (by simp)
        · have : (handleClose s ws).1.rooms =
              mapSet s.rooms rn
                { room with receivers := setDelete room.receivers ws } := by
            unfold handleClose
            simp [getMeta, hgm, hrnm0, htr, hne, truthy, hgetr, hcond, hclean]
          rw [this, mapGet_set_self] at hg'
          obtain rfl := Option.some.inj hg'
          refine ⟨rfl, ?_⟩
          intro r
          exact mem_setDelete room.receivers ws r
      · intro S hS
        have hSne : S ≠ ws := by
          rintro rfl
          exact hsnw hS
        constructor
        · intro hopen
          have hout : (handleClose s ws).2 =
              [(S, receiverLeftMsg m0.peerId)] := by
            unfold handleClose
            have hopen1 : isOpen { s with socketMeta := mapErase s.socketMeta ws, openConns := setDelete s.openConns ws } S = true := by
              simp only [isOpen]
              rw [contains_setDelete_ne s.openConns ws S hSne]
              exact hopen
            simp [getMeta, hgm, hrnm0, htr, hne, truthy, hgetr, hcond, hS, hSne, hopen1]
          rw [hout]
          have : (getMeta s.socketMeta ws).peerId = m0.peerId := by
            simp [getMeta, hgm]
          rw [this]
        · intro hclosed
          have hclosed1 : isOpen { s with socketMeta := mapErase s.socketMeta ws, openConns := setDelete s.openConns ws } S = false := by
            simp only [isOpen]
            rw [contains_setDelete_ne s.openConns ws S hSne]
            exact hclosed
          unfold handleClose
          simp [getMeta, hgm, hrnm0, htr, hne, truthy, hgetr, hcond, hS, hSne, hclosed1]
      · intro hS
        unfold handleClose
        simp [getMeta, hgm, hrnm0, htr, hne, truthy, hgetr, hcond, hS]

/-- A concrete relay fixture: sender 0 (identity S), receivers 1 (R1, open)
and 2 (R2, no longer open). -/
def sRelay : ServerState :=
  { rooms := [("home", { sender := some 0, receivers := [1, 2], code := "1000" })],
    socketMeta :=
      [(0, { role := some "sender", peerId := some "S", roomName := some "home" }),
       (1, { role := some "receiver", peerId := some "R1", roomName := some "home" }),
       (2, { role := some "receiver", peerId := some "R2", roomName := some "home" })],
    openConns := [0, 1] }

/-- An offer from the sender addressed to peer identity R2. -/
def offerMsg : SignalMessage :=
  { type := "offer", sdp := some "x", to' := some "R2" }

theorem C5_relay_routing_witness :
    (handleMessage sRelay 0 offerMsg 0).1 = sRelay ∧
    ((getMeta sRelay.socketMeta 0).roomName = none →
      (handleMessage sRelay 0 offerMsg 0).2 = []) ∧
    (∀ rn room, (getMeta sRelay.socketMeta 0).roomName = some rn → rn ≠ "" →
      mapGet sRelay.rooms rn = some room →
      ((getMeta sRelay.socketMeta 0).role = some "sender" →
        (∀ t, offerMsg.to' = some t → t ≠ "" →
          (∀ p ∈ (handleMessage sRelay 0 offerMsg 0).2,
            p.2 = withFrom offerMsg (getMeta sRelay.socketMeta 0).peerId ∧
            p.1 ∈ room.receivers ∧
            (getMeta sRelay.socketMeta p.1).peerId = some t) ∧
          (handleMessage sRelay 0 offerMsg 0).2.length ≤ 1 ∧
          ((∃ r ∈ room.receivers,
              (getMeta sRelay.socketMeta r).peerId = some t) →
            (handleMessage sRelay 0 offerMsg 0).2 ≠ [])) ∧
        ((offerMsg.to' = none ∨ offerMsg.to' = some "") →
          (handleMessage sRelay 0 offerMsg 0).2 =
            (room.receivers.filter (fun r => isOpen sRelay r)).map
              (fun r => (r, withFrom offerMsg (getMeta sRelay.socketMeta 0).peerId)))) ∧
      ((getMeta sRelay.socketMeta 0).role = some "receiver" →
        (∀ S, room.sender = some S →
          (isOpen sRelay S = true →
            (handleMessage sRelay 0 offerMsg 0).2 =
              [(S, withFrom offerMsg (getMeta sRelay.socketMeta 0).peerId)]) ∧
          (isOpen sRelay S = false →
            (handleMessage sRelay 0 offerMsg 0).2 = [])) ∧
        (room.sender = none → (handleMessage sRelay 0 offerMsg 0).2 = []))) :=
  C5_relay_routing sRelay 0 offerMsg 0 (Or.inl rfl)

theorem C7_close_reconciliation_witness :
    ((getMeta sTrace4.socketMeta 1).roomName = none →
      (handleClose sTrace4 1).1.rooms = sTrace4.rooms ∧
      (handleClose sTrace4 1).2 = []) ∧
    (∀ rn room, (getMeta sTrace4.socketMeta 1).roomName = some rn →
      mapGet sTrace4.rooms rn = some room →
      ((room.sender = some 1 →
        (handleClose sTrace4 1).2 =
          (room.receivers.filter (fun r => isOpen sTrace4 r)).map
            (fun r => (r, senderLeftMsg)) ∧
        (∀ room', mapGet (handleClose sTrace4 1).1.rooms rn = some room' →
          room'.sender = none ∧ room'.receivers = room.receivers) ∧
        (mapGet (handleClose sTrace4 1).1.rooms rn = none ↔
          room.receivers = [])) ∧
       (room.sender ≠ some 1 →
        (∀ room', mapGet (handleClose sTrace4 1).1.rooms rn = some room' →
          room'.sender = room.sender ∧
          ∀ r, r ∈ room'.receivers ↔ (r ∈ room.receivers ∧ r ≠ 1)) ∧
        (∀ S, room.sender = some S →
          (isOpen sTrace4 S = true →
            (handleClose sTrace4 1).2 =
              [(S, receiverLeftMsg (getMeta sTrace4.socketMeta 1).peerId)]) ∧
          (isOpen sTrace4 S = false → (handleClose sTrace4 1).2 = [])) ∧
        (room.sender = none → (handleClose sTrace4 1).2 = [])))) :=
  C7_close_reconciliation sTrace4 1 (inv_reachableSJ sTrace4 sTrace4_reachableSJ)

theorem C2_empty_room_only_from_denied_join_witness :
    (∃ room, mapGet sOneConn.rooms "home" = some room ∧ room.sender = none ∧
      room.receivers = []) ∨
    (∃ ws msg k, Op.message 0 denyJoinMsg 0 = Op.message ws msg k ∧
      msg.type = "join" ∧ msg.room = some "home" ∧ msg.role = some "receiver" ∧
      mapGet sOneConn.rooms "home" = none ∧
      msg.code ≠ some (generateRoomCode k)) :=
  C2_empty_room_only_from_denied_join sOneConn sOneConn_reachable
    (Op.message 0 denyJoinMsg 0) "home"
    { sender := none, receivers := [], code := "1000" }
    (by decide) rfl rfl

end TinyStream

